import Mathlib

/-!
Code execution and evaluation engine

A shallow embedding of `backend/utils/codeExecutor.js` and of the three runners
`backend/executePython.js`, `backend/executeCpp.js` and `backend/executeJava.js`, followed by
the parts of the repository that surround the engine: `backend/utils/security.js`, the input
sanitiser of `frontend/src/utils/security.ts` and `backend/middlewares/securityMiddleware.js`,
the session guards of `testCompletionController.js` and `testSessionController.js`, and the
score and status of `submitCode` in `codingController.js`.

JavaScript strings are modelled by `String` (sequences of characters).  Everything the
engine asks of the outside (clock, identifiers, the temp directory, external processes) is
read from an explicit `Env`; the files of the temp directory are explicit state, and every
side effect is recorded in a trace of `Event`s.  A promise that never settles (an exception
thrown inside a `child_process.exec` callback is not caught by the surrounding promise) is
modelled by `none`.  Double-precision arithmetic is modelled exactly on the values that occur
(`roundToDouble`, `mathRound`).
-/

namespace CodeExecutor

/-! ## JavaScript strings -/

/-- Characters removed by `String.prototype.trim` and matched by the regex class `\s`:
the ECMAScript WhiteSpace and LineTerminator code points. -/
def isJSWhitespace (c : Char) : Bool :=
  let n := c.toNat
  n == 0x09 || n == 0x0A || n == 0x0B || n == 0x0C || n == 0x0D || n == 0x20 || n == 0xA0 ||
  n == 0x1680 || (decide (0x2000 ≤ n) && decide (n ≤ 0x200A)) || n == 0x2028 || n == 0x2029 ||
  n == 0x202F || n == 0x205F || n == 0x3000 || n == 0xFEFF

/-- Characters matched by the regex class `\w`: `[A-Za-z0-9_]`. -/
def isWordChar (c : Char) : Bool :=
  let n := c.toNat
  (decide (0x41 ≤ n) && decide (n ≤ 0x5A)) || (decide (0x61 ≤ n) && decide (n ≤ 0x7A)) ||
  (decide (0x30 ≤ n) && decide (n ≤ 0x39)) || n == 0x5F

/-- Leading whitespace removed. -/
def trimStartChars (s : List Char) : List Char := s.dropWhile isJSWhitespace

/-- Trailing whitespace removed. -/
def trimEndChars (s : List Char) : List Char := (s.reverse.dropWhile isJSWhitespace).reverse

/-- `String.prototype.trim`: leading and trailing whitespace removed. -/
def trim (s : String) : String := ⟨trimEndChars (trimStartChars s.data)⟩

/-- `String.prototype.trimEnd`: only trailing whitespace removed. -/
def trimEnd (s : String) : String := ⟨trimEndChars s.data⟩

/-- Substring test on character lists. -/
def includesChars : List Char → List Char → Bool
  | [], pat => pat.isEmpty
  | c :: cs, pat => pat.isPrefixOf (c :: cs) || includesChars cs pat

/-- `String.prototype.includes`. -/
def includes (s pat : String) : Bool := includesChars s.data pat.data

/-- `String.prototype.toLowerCase`, on the letters `A`-`Z`; other characters are kept.
(No character outside `A`-`Z` lower-cases to a letter of a supported language name.) -/
def toLowerCase (s : String) : String := ⟨s.data.map Char.toLower⟩

/-- The JavaScript `a || b` on a possibly undefined string `a`: `a` when it is a non-empty
string, otherwise `b`. -/
def jsOr (a : Option String) (b : String) : String :=
  match a with
  | some s => if s = "" then b else s
  | none => b

/-! ## JavaScript values, as far as `typeof` distinguishes them -/

/-- A JavaScript value passed as an argument. -/
inductive JSVal where
  | undefined
  | null
  | bool (b : Bool)
  | num (n : Int)
  | str (s : String)
  | obj
  deriving DecidableEq, Repr

/-- The test `typeof v === 'string'`. -/
def JSVal.isString : JSVal → Bool
  | .str _ => true
  | _ => false

/-! ## `security.js` -/

/-- The UTF-16 code units of a character: one unit in the basic plane, a surrogate pair above
it. -/
def utf16Char (c : Char) : List Nat :=
  if c.toNat < 0x10000 then [c.toNat]
  else [0xD800 + (c.toNat - 0x10000) / 0x400, 0xDC00 + (c.toNat - 0x10000) % 0x400]

/-- The UTF-16 code units of a text: the units a JavaScript string consists of, and which its
`length`, its `substring` and a regex without the flag `u` count. -/
def utf16Units : List Char → List Nat
  | [] => []
  | c :: cs => utf16Char c ++ utf16Units cs

/-- The code units of a string. -/
def utf16 (s : String) : List Nat := utf16Units s.data

/-- Control code units `[\x00-\x1f\x7f-\x9f]`. -/
def isControlUnit (u : Nat) : Bool :=
  decide (u ≤ 0x1F) || (decide (0x7F ≤ u) && decide (u ≤ 0x9F))

/-- The function `sanitizeForLog` on a JavaScript string, given by its code units: carriage
returns and line feeds, control units and angle brackets are removed, and `substring(0, 100)`
keeps the first 100 code units. -/
def sanitizeForLog (input : List Nat) : List Nat :=
  (((input.filter (fun u => !(u == 0x0D || u == 0x0A))).filter
      (fun u => !isControlUnit u)).filter (fun u => !(u == 0x3C || u == 0x3E))).take 100

/-! ## Double-precision arithmetic of the percentage

`Math.round((totalScore / testCases.length) * 100)` is computed on IEEE 754 binary64 numbers.
A positive double is represented exactly as `m / 2 ^ k` by the pair `(m, k)`. -/

/-- The least `k` at or after the given one with `2 ^ 52 * q ≤ p * 2 ^ k`, searched with
fuel. -/
def findShift (p q : Nat) : Nat → Nat → Nat
  | 0, k => k
  | fuel + 1, k => if 2 ^ 52 * q ≤ p * 2 ^ k then k else findShift p q fuel (k + 1)

/-- The positive rational `p / q` (below `2 ^ 53`, not below `2 ^ (-1022)`) rounded to the
nearest binary64 number, ties to even; the result is `m / 2 ^ k` for the returned `(m, k)`. -/
def roundToDouble (p q : Nat) : Nat × Nat :=
  if p = 0 then (0, 0) else
  let k := findShift p q 1100 0
  let n := p * 2 ^ k / q
  let r := p * 2 ^ k % q
  let m := if 2 * r < q then n else if q < 2 * r then n + 1 else if n % 2 = 0 then n else n + 1
  (m, k)

/-- `Math.round` of the double `m / 2 ^ k`: the integer nearest to it, halves upwards. -/
def mathRound (d : Nat × Nat) : Nat := (2 * d.1 + 2 ^ d.2) / 2 ^ (d.2 + 1)

/-- The expression `Math.round((totalScore / length) * 100)` for `length > 0`. -/
def percentageOf (totalScore length : Nat) : Nat :=
  let x := roundToDouble totalScore length
  mathRound (roundToDouble (x.1 * 100) (2 ^ x.2))

/-- The percentage as the specification words it: `100 * K / N` rounded to the nearest
integer, halves upwards, in exact arithmetic. -/
def specPercentage (K N : Nat) : Nat := (200 * K + N) / (2 * N)

/-! ## Paths -/

/-- `path.join(dir, name)` for a normalised directory path and a plain file name. -/
def pathJoin (dir name : String) : String := dir ++ "/" ++ name

/-- The last path segment. -/
def lastSegment (s : List Char) : List Char := (s.reverse.takeWhile (fun c => c != '/')).reverse

/-- `path.dirname`, for a path that has a directory part. -/
def dirname (p : String) : String := ⟨((p.data.reverse.dropWhile (fun c => c != '/')).drop 1).reverse⟩

/-- `path.extname`: the last segment from its last dot on, empty when it has no dot or only
a leading one. -/
def extname (p : String) : String :=
  let seg := lastSegment p.data
  let afterDot := (seg.reverse.takeWhile (fun c => c != '.')).reverse
  if afterDot.length = seg.length then ""
  else if afterDot.length + 1 = seg.length then ""
  else ⟨'.' :: afterDot⟩

/-- `path.basename(p, ext)`: the last segment without the suffix `ext`. -/
def basename (p ext : String) : String :=
  let seg := lastSegment p.data
  if ext.data.isSuffixOf seg && seg != ext.data then ⟨seg.take (seg.length - ext.data.length)⟩
  else ⟨seg⟩

/-- `sanitizeFilePath(filePath, allowedDir)` on normalised absolute paths (which
`path.normalize` and `path.resolve` leave unchanged): `null` for an empty path or one that
does not start with the allowed directory. -/
def sanitizeFilePath (filePath allowedDir : String) : Option String :=
  if filePath = "" then none
  else if allowedDir.data.isPrefixOf filePath.data then some filePath
  else none

/-! ## The outside world -/

/-- The error object `child_process.exec` hands to its callback. -/
structure ProcError where
  killed : Bool
  message : String
  deriving DecidableEq, Repr

/-- What an external process did: the callback arguments and the files it left behind. -/
structure ProcOutcome where
  error : Option ProcError
  stdout : String
  stderr : String
  created : List String
  deriving DecidableEq, Repr

/-- Side effects, in the order they happen. -/
inductive Event where
  | spawn (command : String) (timeout : Option Nat)
  | stdin (data : String)
  | writeFile (path : String) (content : String)
  | unlink (path : String)
  | log (label : String) (message : List Nat)
  deriving DecidableEq, Repr

/-- Everything one call of `executeCode` reads from outside. -/
structure Env where
  /-- The constant `TEMP_DIR`. -/
  tempDir : String
  /-- The value of `uuidv4()`. -/
  sessionId : String
  /-- The first reading of `Date.now()`. -/
  startTime : Int
  /-- The second reading of `Date.now()`. -/
  endTime : Int
  /-- The version query of `checkCompilerAvailability` ends without error. -/
  probe : Bool
  /-- The `javac -version` query of `executeJavaCode` ends without error. -/
  javacCheck : Bool
  /-- The message of the exception `fs.writeFileSync` throws for this path, if it throws. -/
  writeThrows : String → Option String
  /-- The compiler run. -/
  compile : ProcOutcome
  /-- The run of the program. -/
  run : ProcOutcome
  /-- The message of the exception `fs.unlinkSync` throws inside a runner callback. -/
  unlinkThrows : String → Option String
  /-- The message of the exception `fs.unlinkSync` throws inside `cleanupTempFiles`. -/
  cleanupUnlinkThrows : String → Option String

/-- The files of the temp directory and the effects so far. -/
structure World where
  files : List String
  trace : List Event
  deriving DecidableEq, Repr

/-- Record an effect. -/
def World.emit (w : World) (e : Event) : World := { w with trace := w.trace ++ [e] }

/-- Files appear. -/
def World.create (w : World) (paths : List String) : World :=
  { w with files := w.files ++ paths.filter (fun p => decide (p ∉ w.files)) }

/-- A successful `fs.writeFileSync`. -/
def World.write (w : World) (path content : String) : World :=
  (w.create [path]).emit (.writeFile path content)

/-- `fs.existsSync`. -/
def World.exists (w : World) (path : String) : Bool := decide (path ∈ w.files)

/-- A successful `fs.unlinkSync`. -/
def World.unlink (w : World) (path : String) : World :=
  { files := w.files.filter (fun p => p != path), trace := w.trace ++ [.unlink path] }

/-- The value a runner promise is rejected with, or an exception caught by a wrapper. -/
structure Rejection where
  error : Option String
  stderr : Option String
  message : Option String
  type : Option String
  deriving DecidableEq, Repr

/-- An `Error` thrown by Node with the given message. -/
def Rejection.ofMessage (msg : String) : Rejection :=
  { error := none, stderr := none, message := some msg, type := none }

/-- What a runner wrapper returns. -/
structure RunnerResult where
  success : Bool
  output : String
  error : String
  deriving DecidableEq, Repr

/-- What `executeCode` returns; a flag is `true` when the property is present. -/
structure ExecutionResult where
  success : Bool
  output : String
  error : String
  executionTime : Int
  compilerError : Bool
  runtimeError : Bool
  deriving DecidableEq, Repr

/-- A finished or abandoned asynchronous call: `result = none` when the promise never
settles. -/
structure Run (α : Type) where
  result : Option α
  world : World

/-! ## The Java source repairs of `executeJavaCode` -/

/-- The input after a literal, when it starts with it. -/
def stripLit : List Char → List Char → Option (List Char)
  | [], s => some s
  | _ :: _, [] => none
  | p :: ps, c :: cs => if p = c then stripLit ps cs else none

/-- The input after `\s+`, when it starts with whitespace. -/
def skipSpaces1 (s : List Char) : Option (List Char) :=
  match s with
  | [] => none
  | c :: cs => if isJSWhitespace c then some (cs.dropWhile isJSWhitespace) else none

/-- A match of `/public\s+class\s+(\w+)/` at the start of the input: the captured name. -/
def matchPublicClassAt (s : List Char) : Option (List Char) :=
  match stripLit "public".data s with
  | none => none
  | some r1 =>
    match skipSpaces1 r1 with
    | none => none
    | some r2 =>
      match stripLit "class".data r2 with
      | none => none
      | some r3 =>
        match skipSpaces1 r3 with
        | none => none
        | some r4 =>
          match r4.takeWhile isWordChar with
          | [] => none
          | c :: cs => some (c :: cs)

/-- The first match of `/public\s+class\s+(\w+)/`: its captured name. -/
def findPublicClass : List Char → Option (List Char)
  | [] => none
  | c :: cs =>
    match matchPublicClassAt (c :: cs) with
    | some name => some name
    | none => findPublicClass cs

/-- A match of `/public\s+static\s+void\s+Main\s*\(/` at the start of the input: what
follows the match. -/
def matchMainAt (s : List Char) : Option (List Char) :=
  match stripLit "public".data s with
  | none => none
  | some r1 =>
    match skipSpaces1 r1 with
    | none => none
    | some r2 =>
      match stripLit "static".data r2 with
      | none => none
      | some r3 =>
        match skipSpaces1 r3 with
        | none => none
        | some r4 =>
          match stripLit "void".data r4 with
          | none => none
          | some r5 =>
            match skipSpaces1 r5 with
            | none => none
            | some r6 =>
              match stripLit "Main".data r6 with
              | none => none
              | some r7 => stripLit "(".data (r7.dropWhile isJSWhitespace)

/-- The global replacement of `/public\s+static\s+void\s+Main\s*\(/g` by
`public static void main(`; the counter is the number of characters of the current match
still to be skipped. -/
def replaceMainAux : List Char → Nat → List Char
  | [], _ => []
  | _ :: cs, skip + 1 => replaceMainAux cs skip
  | c :: cs, 0 =>
    match matchMainAt (c :: cs) with
    | some rest =>
      "public static void main(".data ++ replaceMainAux cs ((c :: cs).length - rest.length - 1)
    | none => c :: replaceMainAux cs 0

/-- The class name `executeJavaCode` uses: the captured name, or `Main`. -/
def javaClassName (code : String) : String :=
  match findPublicClass code.data with
  | some name => ⟨name⟩
  | none => "Main"

/-- The first repair: a source without a public class is wrapped in `Main`. -/
def wrapInMain (code : String) : String :=
  match findPublicClass code.data with
  | some _ => code
  | none => "public class Main \x7b\n" ++ code ++ "\n\x7d"

/-- The second repair: the entry point `Main(` is renamed. -/
def fixMainSignature (code : String) : String := ⟨replaceMainAux code.data 0⟩

/-- The third repair: the `Scanner` import is added when it is used and not imported. -/
def addScannerImport (code : String) : String :=
  if includes code "Scanner" && !includes code "import java.util.Scanner" then
    "import java.util.Scanner;\n" ++ code
  else code

/-- The source `executeJavaCode` writes to disk. -/
def normalizeJava (code : String) : String :=
  addScannerImport (fixMainSignature (wrapInMain code))

/-! ## The runners -/

/-- The runner `executePython(filePath, input)`. -/
def executePython (env : Env) (w : World) (filePath input : String) :
    Run (Except Rejection String) :=
  let w1 := w.emit (.spawn ("python3 \"" ++ filePath ++ "\"") (some 5000))
  let w2 := if input = "" then w1 else w1.emit (.stdin input)
  let w3 := w2.create env.run.created
  match env.run.error with
  | some error =>
    if error.killed then
      ⟨some (.error { error := some "Execution timeout (5 seconds)",
                      stderr := some "Time limit exceeded", message := none,
                      type := some "timeout" }), w3⟩
    else
      ⟨some (.error { error := some (jsOr (some env.run.stderr) error.message),
                      stderr := some env.run.stderr, message := none,
                      type := some "runtime" }), w3⟩
  | none => ⟨some (.ok env.run.stdout), w3⟩

/-- The runner `executeCpp(filePath, input)`. -/
def executeCpp (env : Env) (w : World) (filePath input : String) :
    Run (Except Rejection String) :=
  let dir := dirname filePath
  let fileName := basename filePath (extname filePath)
  let executablePath := pathJoin dir fileName
  let w1 := (w.emit (.spawn ("g++ \"" ++ filePath ++ "\" -o \"" ++ executablePath ++ "\"")
    none)).create env.compile.created
  match env.compile.error with
  | some compileError =>
    ⟨some (.error { error := some (jsOr (some env.compile.stderr) compileError.message),
                    stderr := some env.compile.stderr, message := none,
                    type := some "compilation" }), w1⟩
  | none =>
    let w2 := w1.emit (.spawn ("\"" ++ executablePath ++ "\"") (some 5000))
    let w3 := if input = "" then w2 else w2.emit (.stdin input)
    let w4 := w3.create env.run.created
    -- the callback: the executable is removed first
    if w4.exists executablePath && (env.unlinkThrows executablePath).isSome then ⟨none, w4⟩
    else
    let w5 := if w4.exists executablePath then w4.unlink executablePath else w4
    if w5.exists (executablePath ++ ".exe") && (env.unlinkThrows (executablePath ++ ".exe")).isSome
    then ⟨none, w5⟩
    else
    let w6 := if w5.exists (executablePath ++ ".exe") then w5.unlink (executablePath ++ ".exe")
      else w5
    match env.run.error with
    | some runError =>
      if runError.killed then
        ⟨some (.error { error := some "Execution timeout (5 seconds)",
                        stderr := some "Time limit exceeded", message := none,
                        type := some "timeout" }), w6⟩
      else
        ⟨some (.error { error := some (jsOr (some env.run.stderr) runError.message),
                        stderr := some env.run.stderr, message := none,
                        type := some "runtime" }), w6⟩
    | none => ⟨some (.ok env.run.stdout), w6⟩

/-- The runner `executeJava(filePath, input)`. -/
def executeJava (env : Env) (w : World) (filePath input : String) :
    Run (Except Rejection String) :=
  let dir := dirname filePath
  let fileName := basename filePath ".java"
  let w1 := (w.emit (.spawn ("javac \"" ++ filePath ++ "\"") none)).create env.compile.created
  match env.compile.error with
  | some compileError =>
    ⟨some (.error { error := some (jsOr (some env.compile.stderr) compileError.message),
                    stderr := some env.compile.stderr, message := none,
                    type := some "compilation" }), w1⟩
  | none =>
    let w2 := w1.emit (.spawn ("java " ++ fileName) (some 5000))
    let w3 := if input = "" then w2 else w2.emit (.stdin input)
    let w4 := w3.create env.run.created
    -- the callback: the class file is removed first
    let classFile := pathJoin dir (fileName ++ ".class")
    if w4.exists classFile && (env.unlinkThrows classFile).isSome then ⟨none, w4⟩
    else
    let w5 := if w4.exists classFile then w4.unlink classFile else w4
    match env.run.error with
    | some runError =>
      if runError.killed then
        ⟨some (.error { error := some "Execution timeout (5 seconds)",
                        stderr := some "Time limit exceeded", message := none,
                        type := some "timeout" }), w5⟩
      else
        ⟨some (.error { error := some (jsOr (some env.run.stderr) runError.message),
                        stderr := some env.run.stderr, message := none,
                        type := some "runtime" }), w5⟩
    | none => ⟨some (.ok env.run.stdout), w5⟩

/-! ## The runner wrappers of `codeExecutor.js` -/

/-- The message of the `TypeError` that `fs.writeFileSync(null, ...)` throws. -/
def nullPathMessage : String :=
  "The \"path\" argument must be of type string or an instance of Buffer or URL. Received null"

/-- The `catch` block of `executePythonCode`. -/
def catchPython (e : Rejection) : RunnerResult :=
  { success := false, output := "", error := jsOr e.error (jsOr e.message "Python execution failed") }

/-- The `catch` block of `executeCppCode`. -/
def catchCpp (e : Rejection) : RunnerResult :=
  { success := false, output := "", error := jsOr e.error (jsOr e.message "C++ execution failed") }

/-- The `catch` block of `executeCCode`. -/
def catchC (e : Rejection) : RunnerResult :=
  { success := false, output := "", error := jsOr e.error (jsOr e.message "C execution failed") }

/-- The `catch` block of `executeJavaCode`. -/
def catchJava (e : Rejection) : RunnerResult :=
  { success := false, output := "",
    error := jsOr e.stderr (jsOr e.error (jsOr e.message "Java execution failed")) }

/-- The wrapper `executePythonCode(code, input, sessionId, timeLimit)`. -/
def executePythonCode (env : Env) (w : World) (code input sessionId : String) (_timeLimit : Nat) :
    Run RunnerResult :=
  let fileName := sessionId ++ ".py"
  match sanitizeFilePath (pathJoin env.tempDir fileName) env.tempDir with
  | none => ⟨some (catchPython (Rejection.ofMessage nullPathMessage)), w⟩
  | some filePath =>
    match env.writeThrows filePath with
    | some msg => ⟨some (catchPython (Rejection.ofMessage msg)), w⟩
    | none =>
      let r := executePython env (w.write filePath code) filePath input
      match r.result with
      | none => ⟨none, r.world⟩
      | some (.ok output) => ⟨some { success := true, output := trim output, error := "" }, r.world⟩
      | some (.error e) => ⟨some (catchPython e), r.world⟩

/-- The wrapper `executeCppCode(code, input, sessionId, timeLimit)`. -/
def executeCppCode (env : Env) (w : World) (code input sessionId : String) (_timeLimit : Nat) :
    Run RunnerResult :=
  let fileName := sessionId ++ ".cpp"
  match sanitizeFilePath (pathJoin env.tempDir fileName) env.tempDir with
  | none => ⟨some (catchCpp (Rejection.ofMessage nullPathMessage)), w⟩
  | some filePath =>
    match env.writeThrows filePath with
    | some msg => ⟨some (catchCpp (Rejection.ofMessage msg)), w⟩
    | none =>
      let r := executeCpp env (w.write filePath code) filePath input
      match r.result with
      | none => ⟨none, r.world⟩
      | some (.ok output) => ⟨some { success := true, output := trim output, error := "" }, r.world⟩
      | some (.error e) => ⟨some (catchCpp e), r.world⟩

/-- The wrapper `executeCCode(code, input, sessionId, timeLimit)`; it runs `executeCpp`. -/
def executeCCode (env : Env) (w : World) (code input sessionId : String) (_timeLimit : Nat) :
    Run RunnerResult :=
  let fileName := sessionId ++ ".c"
  match sanitizeFilePath (pathJoin env.tempDir fileName) env.tempDir with
  | none => ⟨some (catchC (Rejection.ofMessage nullPathMessage)), w⟩
  | some filePath =>
    match env.writeThrows filePath with
    | some msg => ⟨some (catchC (Rejection.ofMessage msg)), w⟩
    | none =>
      let r := executeCpp env (w.write filePath code) filePath input
      match r.result with
      | none => ⟨none, r.world⟩
      | some (.ok output) => ⟨some { success := true, output := trim output, error := "" }, r.world⟩
      | some (.error e) => ⟨some (catchC e), r.world⟩

/-- The wrapper `executeJavaCode(code, input, sessionId, timeLimit)`. -/
def executeJavaCode (env : Env) (w : World) (code input _sessionId : String) (_timeLimit : Nat) :
    Run RunnerResult :=
  let w0 := w.emit (.spawn "javac -version" none)
  if !env.javacCheck then
    ⟨some { success := false, output := "",
            error := "Java compiler (javac) not found. Please install Java JDK and ensure it is in your PATH." },
      w0⟩
  else
  let className := javaClassName code
  let modifiedCode := normalizeJava code
  let fileName := className ++ ".java"
  match sanitizeFilePath (pathJoin env.tempDir fileName) env.tempDir with
  | none => ⟨some (catchJava (Rejection.ofMessage nullPathMessage)), w0⟩
  | some filePath =>
    match env.writeThrows filePath with
    | some msg => ⟨some (catchJava (Rejection.ofMessage msg)), w0⟩
    | none =>
      let r := executeJava env (w0.write filePath modifiedCode) filePath input
      match r.result with
      | none => ⟨none, r.world⟩
      | some (.ok output) => ⟨some { success := true, output := trim output, error := "" }, r.world⟩
      | some (.error e) => ⟨some (catchJava e), r.world⟩

/-! ## Cleanup and the availability probe -/

/-- The file names `cleanupTempFiles(sessionId)` looks for. -/
def cleanupPatterns (sessionId : String) : List String :=
  [sessionId ++ ".java", sessionId ++ ".class", sessionId ++ ".py", sessionId ++ ".cpp",
   sessionId ++ ".c", sessionId, sessionId ++ ".exe", "Main.java", "Main.class"]

/-- The `forEach` of `cleanupTempFiles`: it stops at the first `unlinkSync` that throws and
returns its message. -/
def unlinkAll (env : Env) : List String → World → World × Option String
  | [], w => (w, none)
  | pattern :: rest, w =>
    let filePath := pathJoin env.tempDir pattern
    if w.exists filePath then
      match env.cleanupUnlinkThrows filePath with
      | some msg => (w, some msg)
      | none => unlinkAll env rest (w.unlink filePath)
    else unlinkAll env rest w

/-- The function `cleanupTempFiles(sessionId)`. -/
def cleanupTempFiles (env : Env) (w : World) (sessionId : String) : World :=
  match unlinkAll env (cleanupPatterns sessionId) w with
  | (w1, none) => w1
  | (w1, some msg) => w1.emit (.log "Cleanup error:" (sanitizeForLog (utf16 msg)))

/-- What `checkCompilerAvailability` resolves with: an object with `available: true`, or one
with `available: false` and an `error`. -/
inductive CompilerCheck where
  | available
  | unavailable (error : String)
  deriving DecidableEq, Repr

/-- The version query of `checkCompilerAvailability` and its callback. -/
def runProbe (env : Env) (w : World) (command errorMessage : String) : CompilerCheck × World :=
  let w1 := w.emit (.spawn command none)
  if env.probe then (.available, w1) else (.unavailable errorMessage, w1)

/-- The function `checkCompilerAvailability(language)`. -/
def checkCompilerAvailability (env : Env) (w : World) (language : String) :
    CompilerCheck × World :=
  match toLowerCase language with
  | "java" =>
    runProbe env w "javac -version" "Java compiler (javac) not found. Please install Java JDK."
  | "python" => runProbe env w "python3 --version" "Python3 not found. Please install Python 3."
  | "python3" => runProbe env w "python3 --version" "Python3 not found. Please install Python 3."
  | "c++" => runProbe env w "g++ --version" "G++ compiler not found. Please install GCC/G++."
  | "cpp" => runProbe env w "g++ --version" "G++ compiler not found. Please install GCC/G++."
  | "c" => runProbe env w "gcc --version" "GCC compiler not found. Please install GCC."
  | _ => (.unavailable ("Unsupported language: " ++ language), w)

/-! ## The coordinator `executeCode` -/

/-- The four runner wrappers. -/
inductive Runner where
  | java
  | python
  | cpp
  | c
  deriving DecidableEq, Repr

/-- The `switch (language.toLowerCase())` of `executeCode`; `none` is its `default`. -/
def selectRunner (lowered : String) : Option Runner :=
  match lowered with
  | "java" => some .java
  | "python" => some .python
  | "python3" => some .python
  | "c++" => some .cpp
  | "cpp" => some .cpp
  | "c" => some .c
  | _ => none

/-- The call of the selected wrapper. -/
def callRunner (r : Runner) (env : Env) (w : World) (code input : String) (timeLimit : Nat) :
    Run RunnerResult :=
  match r with
  | .java => executeJavaCode env w code input env.sessionId timeLimit
  | .python => executePythonCode env w code input env.sessionId timeLimit
  | .cpp => executeCppCode env w code input env.sessionId timeLimit
  | .c => executeCCode env w code input env.sessionId timeLimit

/-- The `catch` block of `executeCode` followed by its `finally`. -/
def catchAndCleanup (env : Env) (w : World) (message : String) : Run ExecutionResult :=
  let w1 := w.emit (.log "Code execution error:" (sanitizeForLog (utf16 message)))
  ⟨some { success := false, output := "", error := jsOr (some message) "Execution failed",
          executionTime := env.endTime - env.startTime, compilerError := false,
          runtimeError := true },
    cleanupTempFiles env w1 env.sessionId⟩

/-- The end of the `try` block of `executeCode` and its `finally`: when the wrapper has
settled, the execution time is added to its result and the temp files are cleaned up. -/
def finishRun (env : Env) (r : Run RunnerResult) : Run ExecutionResult :=
  match r.result with
  | none => ⟨none, r.world⟩
  | some result =>
    ⟨some { success := result.success, output := result.output, error := result.error,
            executionTime := env.endTime - env.startTime, compilerError := false,
            runtimeError := false },
      cleanupTempFiles env r.world env.sessionId⟩

/-- The denylist test of `executeCode`. -/
def isDangerous (code : String) : Bool :=
  includes code "eval(" || includes code "exec(" || includes code "import os" ||
    includes code "import subprocess"

/-- The function `executeCode(code, language, input, timeLimit)`, started on the given files
of the temp directory. -/
def executeCode (env : Env) (files : List String) (code language : JSVal) (input : String)
    (timeLimit : Nat) : Run ExecutionResult :=
  let w0 : World := { files := files, trace := [] }
  match code, language with
  | .str code, .str language =>
    if isDangerous code then catchAndCleanup env w0 "Potentially dangerous code detected"
    else
      match checkCompilerAvailability env w0 language with
      | (.unavailable error, w1) =>
        ⟨some { success := false, output := "", error := error, executionTime := 0,
                compilerError := true, runtimeError := false },
          cleanupTempFiles env w1 env.sessionId⟩
      | (.available, w1) =>
        match selectRunner (toLowerCase language) with
        | none => catchAndCleanup env w1 ("Unsupported language: " ++ language)
        | some runner =>
          finishRun env (callRunner runner env w1 code input timeLimit)
  | _, _ => catchAndCleanup env w0 "Invalid input types"

/-! ## The evaluator `evaluateTestCases` -/

/-- A test case supplied by the caller. -/
structure TestCase where
  input : String
  output : String
  deriving DecidableEq, Repr

/-- One entry of `results`. -/
structure TestCaseOutcome where
  input : String
  expectedOutput : String
  actualOutput : String
  passed : Bool
  error : String
  executionTime : Int
  deriving DecidableEq, Repr

/-- What `evaluateTestCases` returns. -/
structure EvaluationSummary where
  results : List TestCaseOutcome
  totalScore : Nat
  totalTests : Nat
  percentage : Nat
  deriving DecidableEq, Repr

/-- The arguments of one call of `executeCode`. -/
structure Call where
  code : JSVal
  language : JSVal
  input : String
  timeLimit : Nat
  deriving DecidableEq, Repr

/-- The loop variables of `evaluateTestCases`, and the calls of `executeCode` made so far. -/
structure EvalState where
  results : List TestCaseOutcome
  totalScore : Nat
  calls : List Call
  deriving DecidableEq, Repr

/-- The `for` loop of `evaluateTestCases` from the call with the given index on; the
coordinator is a parameter: `exec i call` is what the `i`-th call of `executeCode` returns,
`none` when it never settles. -/
def evaluateLoop (exec : Nat → Call → Option ExecutionResult) (code language : JSVal)
    (timeLimit : Nat) : List TestCase → Nat → EvalState → Option EvalState
  | [], _, st => some st
  | testCase :: rest, i, st =>
    let call : Call := { code := code, language := language, input := testCase.input,
                         timeLimit := timeLimit }
    match exec i call with
    | none => none
    | some result =>
      let passed := result.success && decide (trim result.output = trim testCase.output)
      evaluateLoop exec code language timeLimit rest (i + 1)
        { results := st.results ++ [{ input := testCase.input, expectedOutput := testCase.output,
                                      actualOutput := result.output, passed := passed,
                                      error := result.error,
                                      executionTime := result.executionTime }],
          totalScore := if passed then st.totalScore + 1 else st.totalScore,
          calls := st.calls ++ [call] }

/-- The function `evaluateTestCases(code, language, testCases, timeLimit)` over a coordinator,
together with the calls it made. -/
def evaluateTestCasesWith (exec : Nat → Call → Option ExecutionResult) (code language : JSVal)
    (testCases : List TestCase) (timeLimit : Nat) : Option (EvaluationSummary × List Call) :=
  match evaluateLoop exec code language timeLimit testCases 0
      { results := [], totalScore := 0, calls := [] } with
  | none => none
  | some st =>
    some ({ results := st.results, totalScore := st.totalScore, totalTests := testCases.length,
            percentage := if testCases.length > 0 then percentageOf st.totalScore testCases.length
                          else 0 },
          st.calls)

/-- The function `evaluateTestCases` over `executeCode`: the `i`-th call runs in the `i`-th
environment, on the files the temp directory holds at that moment. -/
def evaluateTestCases (envs : Nat → Env) (files : Nat → List String) (code language : JSVal)
    (testCases : List TestCase) (timeLimit : Nat) : Option (EvaluationSummary × List Call) :=
  evaluateTestCasesWith
    (fun i call => (executeCode (envs i) (files i) call.code call.language call.input
      call.timeLimit).result)
    code language testCases timeLimit

/-- The call of `executeCode` that `evaluateTestCases` makes for a test case. -/
def callFor (code language : JSVal) (timeLimit : Nat) (testCase : TestCase) : Call :=
  { code := code, language := language, input := testCase.input, timeLimit := timeLimit }

/-- The number of entries of `results` that are marked as passed. -/
def passedCount (results : List TestCaseOutcome) : Nat := results.countP (fun o => o.passed)

/-- The coordinator settles on every call that `evaluateTestCases` makes. -/
def AllSettle (exec : Nat → Call → Option ExecutionResult) (code language : JSVal)
    (timeLimit : Nat) (testCases : List TestCase) : Prop :=
  ∀ i (h : i < testCases.length),
    (exec i (callFor code language timeLimit testCases[i])).isSome = true

/-! ## Reading a trace -/

/-- The external commands of a trace, with their kill timeouts, in order. -/
def spawns : List Event → List (String × Option Nat)
  | [] => []
  | .spawn command timeout :: rest => (command, timeout) :: spawns rest
  | _ :: rest => spawns rest

/-- The paths written by a trace, in order. -/
def writes : List Event → List String
  | [] => []
  | .writeFile path _ :: rest => path :: writes rest
  | _ :: rest => writes rest

/-- The version queries of the availability probe. -/
def versionQueries : List String :=
  ["javac -version", "python3 --version", "g++ --version", "gcc --version"]

/-! ## Sample inputs -/

/-- A successful process with the given output. -/
def okProc (stdout : String) (created : List String) : ProcOutcome :=
  { error := none, stdout := stdout, stderr := "", created := created }

/-- A process that failed with the given error output. -/
def failedProc (stderr : String) : ProcOutcome :=
  { error := some { killed := false, message := "Command failed" }, stdout := "",
    stderr := stderr, created := [] }

/-- A process that was killed on its timeout. -/
def killedProc : ProcOutcome :=
  { error := some { killed := true, message := "Command failed" }, stdout := "", stderr := "",
    created := [] }

/-- A host on which every tool is installed, the compiler leaves the executable of run `u1`
and the program prints ` 5`. -/
def sampleEnv : Env where
  tempDir := "/srv/temp"
  sessionId := "u1"
  startTime := 100
  endTime := 130
  probe := true
  javacCheck := true
  writeThrows := fun _ => none
  compile := okProc "" ["/srv/temp/u1"]
  run := okProc " 5\n" []
  unlinkThrows := fun _ => none
  cleanupUnlinkThrows := fun _ => none

/-- The two test cases of the example scenario. -/
def sampleCases : List TestCase := [{ input := "4", output := "5" }, { input := "10", output := "12" }]

/-- A coordinator for the example scenario: the program prints its input plus one. -/
def sampleExec : Nat → Call → Option ExecutionResult := fun _ call =>
  some { success := true, output := if call.input = "4" then "5\n" else "11\n", error := "",
         executionTime := 30, compilerError := false, runtimeError := false }

/-- Forty test cases that expect the output `1`. -/
def fortyCases : List TestCase := List.replicate 40 { input := "", output := "1" }

/-- A coordinator whose first 23 runs print `1` and whose later runs print `0`. -/
def first23Pass : Nat → Call → Option ExecutionResult := fun i _ =>
  some { success := true, output := if i < 23 then "1" else "0", error := "",
         executionTime := 1, compilerError := false, runtimeError := false }

/-- A settled wrapper result is a success with an empty error, or a failure with an empty
output and a non-empty error. -/
def WellFormed (r : RunnerResult) : Prop :=
  (r.success = true ∧ r.error = "") ∨ (r.success = false ∧ r.output = "" ∧ r.error ≠ "")

/-- The `type` a runner promise was rejected with, if it was rejected. -/
def rejectionType (x : Except Rejection String) : Option String :=
  match x with
  | .error e => e.type
  | .ok _ => none

/-- The settlement of a runner promise that the run outcome calls for: a killed process
rejects with the fixed timeout record, another error rejects with type `runtime` and the
error output (the message of the error when that is empty), a normal end resolves with the
standard output. -/
def ClassifiesRun (run : ProcOutcome) (settled : Option (Except Rejection String)) : Prop :=
  (∀ e, run.error = some e → e.killed = true →
    settled = some (.error { error := some "Execution timeout (5 seconds)",
                             stderr := some "Time limit exceeded", message := none,
                             type := some "timeout" })) ∧
  (∀ e, run.error = some e → e.killed = false →
    settled = some (.error { error := some (if run.stderr = "" then e.message else run.stderr),
                             stderr := some run.stderr, message := none,
                             type := some "runtime" })) ∧
  (run.error = none → settled = some (.ok run.stdout))

/-- The commands a compiled-language wrapper starts up to and including the compiler. -/
def compileCommands (runner : Runner) (env : Env) (code : String) : List (String × Option Nat) :=
  match runner with
  | .java =>
    [("javac -version", none),
     ("javac \"" ++ pathJoin env.tempDir (javaClassName code ++ ".java") ++ "\"", none)]
  | .python => []
  | .cpp =>
    [("g++ \"" ++ pathJoin env.tempDir (env.sessionId ++ ".cpp") ++ "\" -o \"" ++
        pathJoin (dirname (pathJoin env.tempDir (env.sessionId ++ ".cpp")))
          (basename (pathJoin env.tempDir (env.sessionId ++ ".cpp"))
            (extname (pathJoin env.tempDir (env.sessionId ++ ".cpp")))) ++ "\"", none)]
  | .c =>
    [("g++ \"" ++ pathJoin env.tempDir (env.sessionId ++ ".c") ++ "\" -o \"" ++
        pathJoin (dirname (pathJoin env.tempDir (env.sessionId ++ ".c")))
          (basename (pathJoin env.tempDir (env.sessionId ++ ".c"))
            (extname (pathJoin env.tempDir (env.sessionId ++ ".c")))) ++ "\"", none)]

/-- The sample host for a Java submission with the public class `Foo`: the compiler leaves
`Foo.class`. -/
def fooEnv : Env := { sampleEnv with compile := okProc "" ["/srv/temp/Foo.class"] }

/-- A Java submission with the public class `Foo`. -/
def fooSource : String := "public class Foo \x7b public static void main(String[] a) \x7b \x7d \x7d"

/-- The sample host for a Java submission without a public class, in the run with the given
identifier: the compiler leaves `Main.class`. -/
def mainEnv (sessionId : String) : Env :=
  { sampleEnv with sessionId := sessionId, compile := okProc "" ["/srv/temp/Main.class"] }

/-! ## Sources related by the entry-point repair -/

/-- A stretch of source that the entry-point repair matches or produces: `public`, then
whitespace, then `s` and text without the letter `p`. -/
def IsSpan (x : List Char) : Prop :=
  ∃ W tail, x = "public".data ++ W ++ 's' :: tail ∧ W ≠ [] ∧
    (∀ c ∈ W, isJSWhitespace c = true) ∧ (∀ c ∈ tail, c ≠ 'p')

/-- Two sources that differ only in stretches of the entry-point repair. -/
inductive Related : List Char → List Char → Prop where
  | nil : Related [] []
  | cons (c : Char) {a b : List Char} : Related a b → Related (c :: a) (c :: b)
  | span {x y a b : List Char} : IsSpan x → IsSpan y → Related a b → Related (x ++ a) (y ++ b)

/-! ## The probe table -/

/-- The version query that `checkCompilerAvailability` runs for the language of a wrapper. -/
def versionQuery : Runner → String
  | .java => "javac -version"
  | .python => "python3 --version"
  | .cpp => "g++ --version"
  | .c => "gcc --version"

/-- The message `checkCompilerAvailability` reports when the version query fails. -/
def remediation : Runner → String
  | .java => "Java compiler (javac) not found. Please install Java JDK."
  | .python => "Python3 not found. Please install Python 3."
  | .cpp => "G++ compiler not found. Please install GCC/G++."
  | .c => "GCC compiler not found. Please install GCC."

/-- The program a shell command starts: the command up to its first blank. -/
def binaryOf (command : String) : String := ⟨command.data.takeWhile (fun c => c != ' ')⟩

/-! ## `path.normalize`, `path.resolve` and the whole of `sanitizeFilePath` (POSIX) -/

/-- The segments of a path between its slashes. -/
def splitSlash : List Char → List (List Char)
  | [] => [[]]
  | c :: cs =>
    if c = '/' then [] :: splitSlash cs
    else
      match splitSlash cs with
      | [] => [[c]]
      | seg :: rest => (c :: seg) :: rest

/-- Segments joined by slashes. -/
def joinSlash : List (List Char) → List Char
  | [] => []
  | [seg] => seg
  | seg :: rest => seg ++ '/' :: joinSlash rest

/-- The segment walk of Node's `normalizeString`: empty and `.` segments are dropped, `..`
removes the segment before it, or is kept when there is none and the path is relative. The
second argument is the stack of kept segments, last first. -/
def normalizeSegments (allowAboveRoot : Bool) : List (List Char) → List (List Char) →
    List (List Char)
  | [], stack => stack.reverse
  | seg :: rest, stack =>
    if seg = [] ∨ seg = ['.'] then normalizeSegments allowAboveRoot rest stack
    else if seg = ['.', '.'] then
      match stack with
      | top :: below =>
        if top = ['.', '.'] then normalizeSegments allowAboveRoot rest (seg :: stack)
        else normalizeSegments allowAboveRoot rest below
      | [] =>
        if allowAboveRoot then normalizeSegments allowAboveRoot rest [seg]
        else normalizeSegments allowAboveRoot rest []
    else normalizeSegments allowAboveRoot rest (seg :: stack)

/-- Node's `normalizeString(path, allowAboveRoot, '/')`. -/
def normalizeString (path : List Char) (allowAboveRoot : Bool) : List Char :=
  joinSlash (normalizeSegments allowAboveRoot (splitSlash path) [])

/-- The function `path.normalize` of `path.posix`. -/
def posixNormalize (path : String) : String :=
  if path = "" then "."
  else
    let isAbsolute := path.data.head? == some '/'
    let trailingSeparator := path.data.getLast? == some '/'
    let p := normalizeString path.data (!isAbsolute)
    if p = [] then
      if isAbsolute then "/" else if trailingSeparator then "./" else "."
    else
      let p1 := if trailingSeparator then p ++ ['/'] else p
      if isAbsolute then ⟨'/' :: p1⟩ else ⟨p1⟩

/-- The loop of `path.resolve`: the arguments are taken from the last to the first, then the
working directory, until the accumulated path is absolute. -/
def resolveLoop : List String → String → Bool → String × Bool
  | [], resolvedPath, resolvedAbsolute => (resolvedPath, resolvedAbsolute)
  | path :: rest, resolvedPath, resolvedAbsolute =>
    if resolvedAbsolute then (resolvedPath, resolvedAbsolute)
    else if path = "" then resolveLoop rest resolvedPath resolvedAbsolute
    else resolveLoop rest (path ++ "/" ++ resolvedPath) (path.data.head? == some '/')

/-- The function `path.resolve(...args)` of `path.posix`, in the working directory `cwd`. -/
def posixResolve (cwd : String) (args : List String) : String :=
  let r := resolveLoop (args.reverse ++ [cwd]) "" false
  let resolvedPath := normalizeString r.1.data (!r.2)
  if r.2 then ⟨'/' :: resolvedPath⟩
  else if resolvedPath = [] then "." else ⟨resolvedPath⟩

/-- The function `sanitizeFilePath(filePath, allowedDir)` on any path string, with
`path.normalize` and `path.resolve` of `path.posix`. -/
def sanitizeFilePathAt (cwd filePath allowedDir : String) : Option String :=
  if filePath = "" then none
  else
    let normalizedPath := posixNormalize filePath
    let resolvedPath := posixResolve cwd [allowedDir, normalizedPath]
    let resolvedAllowedDir := posixResolve cwd [allowedDir]
    if resolvedAllowedDir.data.isPrefixOf resolvedPath.data then some resolvedPath else none

/-- A path lies inside a directory: the segments of the directory are the first segments of
the path. -/
def isInsideDir (path dir : String) : Bool :=
  ((splitSlash dir.data).filter (fun seg => !seg.isEmpty)).isPrefixOf
    ((splitSlash path.data).filter (fun seg => !seg.isEmpty))

/-! ## The input sanitiser of `frontend/src/utils/security.ts` and `securityMiddleware.js` -/

/-- The input after a literal matched without regard to the case of the letters `A`-`Z` (the
flag `i` of a regex without the flag `u`); the literal is given in lower case. -/
def stripLitCI : List Char → List Char → Option (List Char)
  | [], s => some s
  | _ :: _, [] => none
  | p :: ps, c :: cs => if c.toLower = p then stripLitCI ps cs else none

/-- The replacement `.replace(/[<>]/g, '')`. -/
def removeAngles (s : List Char) : List Char := s.filter (fun c => !(c == '<' || c == '>'))

/-- The replacement `.replace(/javascript:/gi, '')`: one pass from the left; the counter is
the number of characters of the current match still to be dropped. -/
def removeJavascriptAux : List Char → Nat → List Char
  | [], _ => []
  | _ :: cs, skip + 1 => removeJavascriptAux cs skip
  | c :: cs, 0 =>
    match stripLitCI "javascript:".data (c :: cs) with
    | some _ => removeJavascriptAux cs ("javascript:".data.length - 1)
    | none => c :: removeJavascriptAux cs 0

/-- A match of `/on\w+=/i` at the start of the input: what follows the match. -/
def matchHandlerAt (s : List Char) : Option (List Char) :=
  match stripLitCI "on".data s with
  | none => none
  | some r =>
    match r.takeWhile isWordChar with
    | [] => none
    | _ :: _ =>
      match r.dropWhile isWordChar with
      | '=' :: rest => some rest
      | _ => none

/-- The replacement `.replace(/on\w+=/gi, '')`: one pass from the left. -/
def removeHandlersAux : List Char → Nat → List Char
  | [], _ => []
  | _ :: cs, skip + 1 => removeHandlersAux cs skip
  | c :: cs, 0 =>
    match matchHandlerAt (c :: cs) with
    | some rest => removeHandlersAux cs ((c :: cs).length - rest.length - 1)
    | none => c :: removeHandlersAux cs 0

/-- The function `sanitizeInput(input)` of the frontend, on a string. -/
def sanitizeInput (input : String) : String :=
  trim ⟨removeHandlersAux (removeJavascriptAux (removeAngles input.data) 0) 0⟩

/-- The function `sanitizeValue(value)` inside `validateInput`, on a string. -/
def sanitizeValue (value : String) : String :=
  trim ⟨removeHandlersAux (removeJavascriptAux (removeAngles value.data) 0) 0⟩

/-- Some match of `/on\w+=/i` occurs in the text. -/
def hasHandler : List Char → Bool
  | [] => false
  | c :: cs => (matchHandlerAt (c :: cs)).isSome || hasHandler cs

/-! ## Test sessions: `testCompletionController.js` and `testSessionController.js`

The database calls are taken to succeed (a failing call ends in the `catch` block with a
rollback and status 500). Marks are whole numbers, on which the double-precision sums of the
source are exact. -/

/-- The values of the column `TestSession.status`. -/
inductive SessionStatus where
  | not_started
  | in_progress
  | on_break
  | completed
  | submitted
  | auto_submitted
  deriving DecidableEq, Repr

/-- The columns of a `TestSession` row that the two controllers read or write. -/
structure TestSession where
  status : SessionStatus
  totalScore : Int
  maxScore : Int
  currentSectionIndex : Nat
  startedAt : Option Nat
  completedAt : Option Nat
  deriving DecidableEq, Repr

/-- A section of a test. -/
structure Section where
  id : Nat
  maxMarks : Int
  deriving DecidableEq, Repr

/-- An entry of `req.body.sectionScores`. -/
structure SectionScoreInput where
  sectionId : Nat
  marksObtained : Int
  deriving DecidableEq, Repr

/-- A stored `SectionScore` row. -/
structure SectionScoreRow where
  sectionId : Nat
  marksObtained : Int
  completed : Bool
  deriving DecidableEq, Repr

/-- The HTTP answer of a controller: status code, the `success` flag and the `error` text. -/
structure Response where
  code : Nat
  success : Bool
  error : Option String
  deriving DecidableEq, Repr

/-- An answer together with the session row as the transaction leaves it (`none`: there is
no row). -/
structure Outcome where
  response : Response
  session : Option TestSession
  deriving DecidableEq, Repr

/-- The loop of `completeTest` over the sections of the test: the marks of the sections that
have an entry in `sectionScores` are added up. -/
def sumSectionScores (sectionScores : List SectionScoreInput) : List Section → Int
  | [] => 0
  | sec :: rest =>
    match sectionScores.find? (fun ss => ss.sectionId == sec.id) with
    | some sectionScore => sectionScore.marksObtained + sumSectionScores sectionScores rest
    | none => sumSectionScores sectionScores rest

/-- The function `completeTest`: `sessionId` is the field of the request body (`none` when it
is absent), `found` the row `TestSession.findByPk` returns. The guard `!sessionId` refuses an
absent and an empty identifier. -/
def completeTest (sessionId : Option String) (found : Option TestSession)
    (sections : List Section) (sectionScores : List SectionScoreInput) (now : Nat) : Outcome :=
  if sessionId = none ∨ sessionId = some "" then
    ⟨⟨400, false, some "Session ID is required"⟩, found⟩
  else
    match found with
    | none => ⟨⟨404, false, some "Test session not found"⟩, none⟩
    | some session =>
      if session.status = .completed ∨ session.status = .submitted then
        ⟨⟨400, false, some "Test has already been submitted"⟩, some session⟩
      else
        let totalScore := sumSectionScores sectionScores sections
        ⟨⟨200, true, none⟩,
          some { session with status := .completed, totalScore := totalScore,
                              completedAt := some now }⟩

/-- The loop of `autoSubmitTest`: the marks of the completed section scores are added up. -/
def sumCompleted : List SectionScoreRow → Int
  | [] => 0
  | score :: rest =>
    if score.completed then score.marksObtained + sumCompleted rest else sumCompleted rest

/-- The function `autoSubmitTest`: its return value (`success` and `error`) and the row. -/
def autoSubmitTest (found : Option TestSession) (sectionScores : List SectionScoreRow)
    (now : Nat) : (Bool × Option String) × Option TestSession :=
  match found with
  | none => ((false, some "Invalid session or already submitted"), none)
  | some session =>
    if session.status ≠ .in_progress then
      ((false, some "Invalid session or already submitted"), some session)
    else
      ((true, none),
        some { session with status := .auto_submitted, totalScore := sumCompleted sectionScores,
                            completedAt := some now })

/-- What `startTestSession` reads about the test: the milliseconds from its scheduled start to
now (`none` when the test has no date and start time, or an invalid one) and the maximum
score of its sections. -/
structure TestInfo where
  sinceStartMs : Option Int
  maxScore : Int
  deriving DecidableEq, Repr

/-- The function `startTestSession`: `idsPresent` says that `testId` and `studentId` are both
given, `test` is the row `Test.findOne` returns, `found` the row of `TestSession.findOne`. -/
def startTestSession (idsPresent : Bool) (test : Option TestInfo) (isLicensedUser : Bool)
    (found : Option TestSession) (now : Nat) : Outcome :=
  if !idsPresent then ⟨⟨400, false, some "Missing testId or studentId"⟩, found⟩
  else
    match test with
    | none => ⟨⟨404, false, some "Test not found"⟩, found⟩
    | some test =>
      if (match test.sinceStartMs with
          | some d => decide (d > 15 * 60000)
          | none => false) then
        ⟨⟨403, false, some "Test start window has expired. You can only join within 15 minutes of the start time."⟩,
          found⟩
      else if (match test.sinceStartMs with
          | some d => decide (d < 0)
          | none => false) then
        ⟨⟨403, false, some "Test has not started yet."⟩, found⟩
      else
        match isLicensedUser, found with
        | true, some session =>
          ⟨⟨403, false,
              some (if session.status = SessionStatus.completed ∨ session.status = SessionStatus.submitted then
                "Test already completed. Licensed users can only take each test ONCE."
              else "Test session already exists. Licensed users can only attempt each test ONCE.")⟩,
            some session⟩
        | _, _ =>
          if (match found with
              | some session =>
                !isLicensedUser &&
                  decide (session.status = SessionStatus.completed ∨ session.status = SessionStatus.submitted)
              | none => false) then
            ⟨⟨403, false, some "Test already completed. You can only take this test once."⟩,
              found⟩
          else
            match found with
            | none =>
              ⟨⟨200, true, none⟩,
                some { status := SessionStatus.in_progress, totalScore := 0, maxScore := test.maxScore,
                       currentSectionIndex := 0, startedAt := some now, completedAt := none }⟩
            | some session =>
              if session.status = SessionStatus.completed ∨ session.status = SessionStatus.submitted then
                ⟨⟨403, false, some "Test already completed. You can only take this test once."⟩,
                  some session⟩
              else
                ⟨⟨200, true, none⟩,
                  some { session with status := SessionStatus.in_progress,
                                      startedAt := some (session.startedAt.getD now) }⟩

/-- A session that was started at time 10 and is in progress. -/
def runningSession : TestSession :=
  { status := .in_progress, totalScore := 0, maxScore := 100, currentSectionIndex := 1,
    startedAt := some 10, completedAt := none }

/-- The stored section scores of the running session: 40 marks in a completed section. -/
def storedScores : List SectionScoreRow :=
  [{ sectionId := 1, marksObtained := 40, completed := true },
   { sectionId := 2, marksObtained := 0, completed := false }]

/-! ## The score and status of `submitCode` (`codingController.js`) -/

/-- The expression `Math.round((totalScore / totalTests) * marks)` on doubles, for whole
marks. -/
def proportionalScore (totalScore totalTests marks : Nat) : Nat :=
  let x := roundToDouble totalScore totalTests
  mathRound (roundToDouble (x.1 * marks) (2 ^ x.2))

/-- The `finalScore` of `submitCode` for a question worth `marks`. -/
def finalScore (evaluation : EvaluationSummary) (marks : Nat) : Nat :=
  proportionalScore evaluation.totalScore evaluation.totalTests marks

/-- The `status` of `submitCode`. -/
def submissionStatus (evaluation : EvaluationSummary) : String :=
  if evaluation.percentage = 100 then "passed" else "failed"

/-- Two hundred test cases that expect the output `1`. -/
def twoHundredCases : List TestCase := List.replicate 200 { input := "", output := "1" }

/-- A coordinator whose first 199 runs print `1` and whose later runs print `0`. -/
def first199Pass : Nat → Call → Option ExecutionResult := fun i _ =>
  some { success := true, output := if i < 199 then "1" else "0", error := "",
         executionTime := 1, compilerError := false, runtimeError := false }

/-! ## Sources related by the entry-point repair, as the import step sees them -/

/-- A stretch of the entry-point repair as the import step sees it: it starts with `pu`,
ends with `(` and has no `S`. -/
def IsClosedSpan (x : List Char) : Prop :=
  (∃ rest, x = 'p' :: 'u' :: rest) ∧ (∃ body, x = body ++ ['(']) ∧ ∀ c ∈ x, c ≠ 'S'

/-- Two sources that differ only in closed stretches of the entry-point repair. -/
inductive RelatedClosed : List Char → List Char → Prop where
  | nil : RelatedClosed [] []
  | cons (c : Char) {a b : List Char} : RelatedClosed a b → RelatedClosed (c :: a) (c :: b)
  | span {x y a b : List Char} :
      IsClosedSpan x → IsClosedSpan y → RelatedClosed a b → RelatedClosed (x ++ a) (y ++ b)

/-- A text that no closed stretch can overlap: it contains `S`, it contains neither `(` nor a
line feed, and `pu` does not occur in it. -/
def Searchable (X : List Char) : Prop :=
  'S' ∈ X ∧ '(' ∉ X ∧ '\n' ∉ X ∧ ∀ s t, X ≠ s ++ 'p' :: 'u' :: t

/-! ## The evaluator: what the loop computes -/

theorem evaluateLoop_spec (exec : Nat → Call → Option ExecutionResult) (code language : JSVal)
    (timeLimit : Nat) (testCases : List TestCase) :
    ∀ (i : Nat) (st : EvalState),
      (∀ j (h : j < testCases.length),
        (exec (i + j) (callFor code language timeLimit testCases[j])).isSome = true) →
      ∃ new : List TestCaseOutcome,
        evaluateLoop exec code language timeLimit testCases i st =
          some { results := st.results ++ new,
                 totalScore := st.totalScore + passedCount new,
                 calls := st.calls ++ testCases.map (callFor code language timeLimit) } ∧
        new.length = testCases.length ∧
        ∀ j (h : j < testCases.length) (r : ExecutionResult),
          exec (i + j) (callFor code language timeLimit testCases[j]) = some r →
          new[j]? = some { input := testCases[j].input, expectedOutput := testCases[j].output,
                           actualOutput := r.output,
                           passed := r.success && decide (trim r.output = trim testCases[j].output),
                           error := r.error, executionTime := r.executionTime } := by
  induction testCases with
  | nil =>
    intro i st _
    exact ⟨[], by simp [evaluateLoop, passedCount], rfl, fun j h => absurd h (by simp)⟩
  | cons tc rest ih =>
    intro i st hs
    have h0 := hs 0 (by simp)
    simp only [Nat.add_zero, List.getElem_cons_zero] at h0
    obtain ⟨r0, hr0⟩ := Option.isSome_iff_exists.mp h0
    have hr0' := hr0
    simp only [callFor] at hr0'
    have hrest : ∀ j (h : j < rest.length),
        (exec (i + 1 + j) (callFor code language timeLimit rest[j])).isSome = true := by
      intro j h
      have := hs (j + 1) (by simpa using h)
      simpa [Nat.add_assoc, Nat.add_comm 1 j] using this
    obtain ⟨new, hnew, hlen, hget⟩ := ih (i + 1)
      { results := st.results ++ [{ input := tc.input, expectedOutput := tc.output,
                                    actualOutput := r0.output,
                                    passed := r0.success && decide (trim r0.output = trim tc.output),
                                    error := r0.error, executionTime := r0.executionTime }],
        totalScore := if (r0.success && decide (trim r0.output = trim tc.output)) = true
                      then st.totalScore + 1 else st.totalScore,
        calls := st.calls ++ [callFor code language timeLimit tc] } hrest
    refine ⟨{ input := tc.input, expectedOutput := tc.output, actualOutput := r0.output,
              passed := r0.success && decide (trim r0.output = trim tc.output),
              error := r0.error, executionTime := r0.executionTime } :: new, ?_, ?_, ?_⟩
    · simp only [evaluateLoop, hr0']
      simp only [callFor] at hnew ⊢
      rw [hnew]
      simp only [Option.some.injEq, EvalState.mk.injEq]
      refine ⟨by simp, ?_, by simp [callFor]⟩
      cases hp : (r0.success && decide (trim r0.output = trim tc.output))
      · simp [passedCount, List.countP_cons, hp]
      · simp only [passedCount, List.countP_cons, hp, if_true]
        omega
    · simp [hlen]
    · intro j h r hr
      cases j with
      | zero =>
        simp only [Nat.add_zero, List.getElem_cons_zero] at hr
        rw [hr0] at hr
        cases hr
        simp
      | succ j =>
        have h' : j < rest.length := by simpa using h
        have := hget j h' r (by simpa [Nat.add_assoc, Nat.add_comm 1 j] using hr)
        simpa using this

theorem evaluateTestCasesWith_eq (exec : Nat → Call → Option ExecutionResult)
    (code language : JSVal) (testCases : List TestCase) (timeLimit : Nat)
    (hsettle : AllSettle exec code language timeLimit testCases) :
    ∃ new : List TestCaseOutcome,
      evaluateTestCasesWith exec code language testCases timeLimit =
        some ({ results := new, totalScore := passedCount new, totalTests := testCases.length,
                percentage := if testCases.length > 0
                  then percentageOf (passedCount new) testCases.length else 0 },
              testCases.map (callFor code language timeLimit)) ∧
      new.length = testCases.length ∧
      ∀ i (h : i < testCases.length) (r : ExecutionResult),
        exec i (callFor code language timeLimit testCases[i]) = some r →
        new[i]? = some { input := testCases[i].input, expectedOutput := testCases[i].output,
                         actualOutput := r.output,
                         passed := r.success && decide (trim r.output = trim testCases[i].output),
                         error := r.error, executionTime := r.executionTime } := by
  obtain ⟨new, hnew, hlen, hget⟩ := evaluateLoop_spec exec code language timeLimit testCases 0
    { results := [], totalScore := 0, calls := [] } (by simpa [AllSettle] using hsettle)
  refine ⟨new, ?_, hlen, ?_⟩
  · simp only [evaluateTestCasesWith, hnew, List.nil_append, Nat.zero_add]
  · intro i h r hr
    exact hget i h r (by simpa using hr)

/-- How `evaluateTestCases` fills the summary when every run settles: one entry per test case,
the score counts the passed entries, and the percentage is the double-precision expression
of the source. -/
theorem evaluateTestCasesWith_summary (exec : Nat → Call → Option ExecutionResult)
    (code language : JSVal) (testCases : List TestCase) (timeLimit : Nat)
    (hsettle : AllSettle exec code language timeLimit testCases) :
    ∃ summary calls,
      evaluateTestCasesWith exec code language testCases timeLimit = some (summary, calls) ∧
      summary.results.length = testCases.length ∧
      summary.totalScore = passedCount summary.results ∧
      summary.totalTests = testCases.length ∧
      summary.percentage =
        (if testCases.length > 0 then percentageOf (passedCount summary.results) testCases.length
         else 0) := by
  obtain ⟨new, hnew, hlen, -⟩ := evaluateTestCasesWith_eq exec code language testCases timeLimit
    hsettle
  exact ⟨_, _, hnew, hlen, rfl, rfl, rfl⟩

/-- The example scenario: of two cases only the first passes, and the summary is
score 1, 2 tests, 50 percent. -/
theorem evaluateTestCasesWith_example :
    (evaluateTestCasesWith sampleExec (.str "print(int(input())+1)") (.str "python3")
      sampleCases 2000).map
        (fun p => (p.1.results.map (fun o => (o.actualOutput, o.passed)), p.1.totalScore,
          p.1.totalTests, p.1.percentage)) =
      some ([("5\n", true), ("11\n", false)], 1, 2, 50) := by
  decide

/-- C1: a test case is marked as passed exactly when its run returned `success = true` and
the trimmed output equals the trimmed expected output, for every coordinator whose runs
settle. -/
theorem evaluateTestCases_passed_iff (exec : Nat → Call → Option ExecutionResult)
    (code language : JSVal) (testCases : List TestCase) (timeLimit : Nat)
    (hsettle : AllSettle exec code language timeLimit testCases) :
    ∃ summary calls,
      evaluateTestCasesWith exec code language testCases timeLimit = some (summary, calls) ∧
      summary.results.length = testCases.length ∧
      ∀ i (h : i < testCases.length) (r : ExecutionResult),
        exec i (callFor code language timeLimit testCases[i]) = some r →
        ∃ o, summary.results[i]? = some o ∧
          (o.passed = true ↔ (r.success = true ∧ trim r.output = trim testCases[i].output)) := by
  obtain ⟨new, hnew, hlen, hget⟩ := evaluateTestCasesWith_eq exec code language testCases
    timeLimit hsettle
  refine ⟨_, _, hnew, hlen, ?_⟩
  intro i h r hr
  refine ⟨_, hget i h r hr, ?_⟩
  simp

/-- Witness of C1 on the example scenario. -/
theorem evaluateTestCases_passed_iff_witness :
    AllSettle sampleExec (.str "print(int(input())+1)") (.str "python3") 2000 sampleCases ∧
    ∃ summary calls,
      evaluateTestCasesWith sampleExec (.str "print(int(input())+1)") (.str "python3")
        sampleCases 2000 = some (summary, calls) ∧
      summary.results.length = sampleCases.length ∧
      ∀ i (h : i < sampleCases.length) (r : ExecutionResult),
        sampleExec i (callFor (.str "print(int(input())+1)") (.str "python3") 2000
          sampleCases[i]) = some r →
        ∃ o, summary.results[i]? = some o ∧
          (o.passed = true ↔ (r.success = true ∧ trim r.output = trim sampleCases[i].output)) :=
  ⟨fun _ _ => rfl,
    evaluateTestCases_passed_iff sampleExec _ _ sampleCases 2000 (fun _ _ => rfl)⟩

/-- C2 (at the failing input): with 40 test cases of which exactly 23 pass, the summary has
score 23 and 40 tests, but the percentage is 57, while `100 * 23 / 40 = 57.5` rounded
half-up is 58. -/
theorem evaluateTestCases_percentage_23_of_40 :
    (evaluateTestCasesWith first23Pass (.str "") (.str "python3") fortyCases 2000).map
        (fun p => (passedCount p.1.results, p.1.results.length, p.1.totalScore, p.1.totalTests,
          p.1.percentage)) = some (23, 40, 23, 40, 57) ∧
      specPercentage 23 40 = 58 := by
  decide

/-- C3: on an empty list of test cases the summary is all zero with no results, and
`executeCode` is not called. -/
theorem evaluateTestCases_empty (exec : Nat → Call → Option ExecutionResult)
    (code language : JSVal) (timeLimit : Nat) :
    evaluateTestCasesWith exec code language [] timeLimit =
      some ({ results := [], totalScore := 0, totalTests := 0, percentage := 0 }, []) := by
  rfl

/-- C4: `executeCode` is called once per test case, in order, with the input of the case as
stdin, whatever the runs return; the `i`-th entry of `results` carries the input and expected
output of the `i`-th case and the output, error and execution time of the `i`-th run. -/
theorem evaluateTestCases_calls_and_results (exec : Nat → Call → Option ExecutionResult)
    (code language : JSVal) (testCases : List TestCase) (timeLimit : Nat)
    (hsettle : AllSettle exec code language timeLimit testCases) :
    ∃ summary calls,
      evaluateTestCasesWith exec code language testCases timeLimit = some (summary, calls) ∧
      calls = testCases.map
        (fun tc => { code := code, language := language, input := tc.input,
                     timeLimit := timeLimit }) ∧
      summary.results.length = testCases.length ∧
      ∀ i (h : i < testCases.length) (r : ExecutionResult),
        exec i (callFor code language timeLimit testCases[i]) = some r →
        ∃ o, summary.results[i]? = some o ∧ o.input = testCases[i].input ∧
          o.expectedOutput = testCases[i].output ∧ o.actualOutput = r.output ∧
          o.error = r.error ∧ o.executionTime = r.executionTime := by
  obtain ⟨new, hnew, hlen, hget⟩ := evaluateTestCasesWith_eq exec code language testCases
    timeLimit hsettle
  refine ⟨_, _, hnew, rfl, hlen, ?_⟩
  intro i h r hr
  exact ⟨_, hget i h r hr, rfl, rfl, rfl, rfl, rfl⟩

/-- Witness of C4 on the example scenario. -/
theorem evaluateTestCases_calls_and_results_witness :
    AllSettle sampleExec (.str "print(int(input())+1)") (.str "python3") 2000 sampleCases ∧
    ∃ summary calls,
      evaluateTestCasesWith sampleExec (.str "print(int(input())+1)") (.str "python3")
        sampleCases 2000 = some (summary, calls) ∧
      calls = sampleCases.map
        (fun tc => { code := .str "print(int(input())+1)", language := .str "python3",
                     input := tc.input, timeLimit := 2000 }) ∧
      summary.results.length = sampleCases.length ∧
      ∀ i (h : i < sampleCases.length) (r : ExecutionResult),
        sampleExec i (callFor (.str "print(int(input())+1)") (.str "python3") 2000
          sampleCases[i]) = some r →
        ∃ o, summary.results[i]? = some o ∧ o.input = sampleCases[i].input ∧
          o.expectedOutput = sampleCases[i].output ∧ o.actualOutput = r.output ∧
          o.error = r.error ∧ o.executionTime = r.executionTime :=
  ⟨fun _ _ => rfl,
    evaluateTestCases_calls_and_results sampleExec _ _ sampleCases 2000 (fun _ _ => rfl)⟩

/-! ## Traces: cleanup neither starts a process nor writes a file -/

theorem spawns_append (a b : List Event) : spawns (a ++ b) = spawns a ++ spawns b := by
  induction a with
  | nil => rfl
  | cons e rest ih => cases e <;> simp [spawns, ih]

theorem writes_append (a b : List Event) : writes (a ++ b) = writes a ++ writes b := by
  induction a with
  | nil => rfl
  | cons e rest ih => cases e <;> simp [writes, ih]

theorem unlinkAll_spawns_writes (env : Env) (patterns : List String) :
    ∀ w : World, spawns (unlinkAll env patterns w).1.trace = spawns w.trace ∧
      writes (unlinkAll env patterns w).1.trace = writes w.trace := by
  induction patterns with
  | nil => intro w; exact ⟨rfl, rfl⟩
  | cons pattern rest ih =>
    intro w
    simp only [unlinkAll]
    split
    · split
      · exact ⟨rfl, rfl⟩
      · have := ih (w.unlink (pathJoin env.tempDir pattern))
        simpa [World.unlink, spawns_append, writes_append, spawns, writes] using this
    · exact ih w

theorem cleanupTempFiles_spawns (env : Env) (w : World) (sessionId : String) :
    spawns (cleanupTempFiles env w sessionId).trace = spawns w.trace := by
  have h := (unlinkAll_spawns_writes env (cleanupPatterns sessionId) w).1
  unfold cleanupTempFiles
  split <;> rename_i heq <;> rw [heq] at h <;>
    simpa [World.emit, spawns_append, spawns] using h

theorem cleanupTempFiles_writes (env : Env) (w : World) (sessionId : String) :
    writes (cleanupTempFiles env w sessionId).trace = writes w.trace := by
  have h := (unlinkAll_spawns_writes env (cleanupPatterns sessionId) w).2
  unfold cleanupTempFiles
  split <;> rename_i heq <;> rw [heq] at h <;>
    simpa [World.emit, writes_append, writes] using h

theorem catchAndCleanup_result (env : Env) (w : World) (message : String) (h : message ≠ "") :
    (catchAndCleanup env w message).result =
      some { success := false, output := "", error := message,
             executionTime := env.endTime - env.startTime, compilerError := false,
             runtimeError := true } := by
  simp [catchAndCleanup, jsOr, h]

theorem catchAndCleanup_spawns (env : Env) (w : World) (message : String) :
    spawns (catchAndCleanup env w message).world.trace = spawns w.trace := by
  simp [catchAndCleanup, cleanupTempFiles_spawns, World.emit, spawns_append, spawns]

theorem catchAndCleanup_writes (env : Env) (w : World) (message : String) :
    writes (catchAndCleanup env w message).world.trace = writes w.trace := by
  simp [catchAndCleanup, cleanupTempFiles_writes, World.emit, writes_append, writes]

/-! ## The coordinator: pre-flight checks -/

/-- C5: a source that contains a denylisted substring is refused with the fixed message,
whatever the language string; no process is started and no file is written. -/
theorem executeCode_dangerous (env : Env) (files : List String) (code language input : String)
    (timeLimit : Nat)
    (h : includes code "eval(" = true ∨ includes code "exec(" = true ∨
      includes code "import os" = true ∨ includes code "import subprocess" = true) :
    (executeCode env files (.str code) (.str language) input timeLimit).result =
      some { success := false, output := "", error := "Potentially dangerous code detected",
             executionTime := env.endTime - env.startTime, compilerError := false,
             runtimeError := true } ∧
    spawns (executeCode env files (.str code) (.str language) input timeLimit).world.trace = [] ∧
    writes (executeCode env files (.str code) (.str language) input timeLimit).world.trace = [] := by
  have hd : isDangerous code = true := by
    simp only [isDangerous, Bool.or_eq_true]
    tauto
  simp only [executeCode, hd, if_true]
  exact ⟨catchAndCleanup_result _ _ _ (by decide), by rw [catchAndCleanup_spawns]; rfl,
    by rw [catchAndCleanup_writes]; rfl⟩

/-- Witness of C5: a Python source that imports `os`, on a host where everything works. -/
theorem executeCode_dangerous_witness :
    (includes "import os" "eval(" = true ∨ includes "import os" "exec(" = true ∨
      includes "import os" "import os" = true ∨
      includes "import os" "import subprocess" = true) ∧
    ((executeCode sampleEnv [] (.str "import os") (.str "python") "" 2000).result =
      some { success := false, output := "", error := "Potentially dangerous code detected",
             executionTime := sampleEnv.endTime - sampleEnv.startTime, compilerError := false,
             runtimeError := true } ∧
    spawns (executeCode sampleEnv [] (.str "import os") (.str "python") "" 2000).world.trace = [] ∧
    writes (executeCode sampleEnv [] (.str "import os") (.str "python") "" 2000).world.trace = []) :=
  ⟨by decide, executeCode_dangerous sampleEnv [] "import os" "python" "" 2000 (by decide)⟩

/-- C6 (counterexample): an empty source in the language `python` is not refused: the probe
and the interpreter are started and the run succeeds. -/
theorem executeCode_empty_source_runs :
    (executeCode sampleEnv [] (.str "") (.str "python") "" 2000).result =
      some { success := true, output := "5", error := "", executionTime := 30,
             compilerError := false, runtimeError := false } ∧
    spawns (executeCode sampleEnv [] (.str "") (.str "python") "" 2000).world.trace =
      [("python3 --version", none), ("python3 \"/srv/temp/u1.py\"", some 5000)] := by
  decide

/-- C6 (amended): when the source or the language is not a string, the call fails with
`Invalid input types`; no process is started and no file is written. -/
theorem executeCode_invalid_types (env : Env) (files : List String) (code language : JSVal)
    (input : String) (timeLimit : Nat)
    (h : code.isString = false ∨ language.isString = false) :
    (executeCode env files code language input timeLimit).result =
      some { success := false, output := "", error := "Invalid input types",
             executionTime := env.endTime - env.startTime, compilerError := false,
             runtimeError := true } ∧
    spawns (executeCode env files code language input timeLimit).world.trace = [] ∧
    writes (executeCode env files code language input timeLimit).world.trace = [] := by
  have key : executeCode env files code language input timeLimit =
      catchAndCleanup env { files := files, trace := [] } "Invalid input types" := by
    cases code <;> cases language <;> simp_all [executeCode, JSVal.isString]
  rw [key]
  exact ⟨catchAndCleanup_result _ _ _ (by decide), by rw [catchAndCleanup_spawns]; rfl,
    by rw [catchAndCleanup_writes]; rfl⟩

/-- Witness of C6 (amended): the source is the number 3. -/
theorem executeCode_invalid_types_witness :
    ((JSVal.num 3).isString = false ∨ (JSVal.str "python").isString = false) ∧
    ((executeCode sampleEnv [] (.num 3) (.str "python") "" 2000).result =
      some { success := false, output := "", error := "Invalid input types",
             executionTime := sampleEnv.endTime - sampleEnv.startTime, compilerError := false,
             runtimeError := true } ∧
    spawns (executeCode sampleEnv [] (.num 3) (.str "python") "" 2000).world.trace = [] ∧
    writes (executeCode sampleEnv [] (.num 3) (.str "python") "" 2000).world.trace = []) :=
  ⟨Or.inl rfl, executeCode_invalid_types sampleEnv [] (.num 3) (.str "python") "" 2000 (Or.inl rfl)⟩

/-! ## The probe and the runners: basic facts -/

theorem checkCompilerAvailability_cases (env : Env) (w : World) (language : String) :
    (∃ runner q msg, selectRunner (toLowerCase language) = some runner ∧ q ∈ versionQueries ∧
      msg ≠ "" ∧ checkCompilerAvailability env w language = runProbe env w q msg) ∨
    (selectRunner (toLowerCase language) = none ∧
      checkCompilerAvailability env w language =
        (.unavailable ("Unsupported language: " ++ language), w)) := by
  unfold checkCompilerAvailability selectRunner
  split
  all_goals first
    | exact Or.inr ⟨rfl, rfl⟩
    | exact Or.inl ⟨_, _, _, rfl, by simp [versionQueries], by decide, rfl⟩

theorem checkCompilerAvailability_congr (env : Env) (w : World) (language language2 : String)
    (h : toLowerCase language2 = toLowerCase language)
    (hs : selectRunner (toLowerCase language) ≠ none) :
    checkCompilerAvailability env w language2 = checkCompilerAvailability env w language := by
  unfold checkCompilerAvailability
  unfold selectRunner at hs
  rw [h]
  split <;> simp_all


theorem executePython_settles (env : Env) (w : World) (filePath input : String) :
    (executePython env w filePath input).result.isSome = true := by
  unfold executePython
  simp only []
  split
  · split <;> rfl
  · rfl

theorem executeCpp_settles (env : Env) (w : World) (filePath input : String)
    (h : ∀ p, env.unlinkThrows p = none) :
    (executeCpp env w filePath input).result.isSome = true := by
  unfold executeCpp
  simp only [h, Option.isSome_none, Bool.and_false, Bool.false_eq_true, if_false]
  split
  · rfl
  · split
    · split <;> rfl
    · rfl

theorem executeJava_settles (env : Env) (w : World) (filePath input : String)
    (h : ∀ p, env.unlinkThrows p = none) :
    (executeJava env w filePath input).result.isSome = true := by
  unfold executeJava
  simp only [h, Option.isSome_none, Bool.and_false, Bool.false_eq_true, if_false]
  split
  · rfl
  · split
    · split <;> rfl
    · rfl

theorem callRunner_settles (runner : Runner) (env : Env) (w : World) (code input : String)
    (timeLimit : Nat) (h : ∀ p, env.unlinkThrows p = none) :
    (callRunner runner env w code input timeLimit).result.isSome = true := by
  cases runner
  · simp only [callRunner, executeJavaCode]
    split
    · rfl
    · split
      · rfl
      · split
        · rfl
        · have := executeJava_settles env
            ((w.emit (.spawn "javac -version" none)).write ‹String› (normalizeJava code))
            ‹String› input h
          split <;> simp_all
  · simp only [callRunner, executePythonCode]
    split
    · rfl
    · split
      · rfl
      · have := executePython_settles env (w.write ‹String› code) ‹String› input
        split <;> simp_all
  · simp only [callRunner, executeCppCode]
    split
    · rfl
    · split
      · rfl
      · have := executeCpp_settles env (w.write ‹String› code) ‹String› input h
        split <;> simp_all
  · simp only [callRunner, executeCCode]
    split
    · rfl
    · split
      · rfl
      · have := executeCpp_settles env (w.write ‹String› code) ‹String› input h
        split <;> simp_all

theorem executeCode_settles (env : Env) (files : List String) (code language : JSVal)
    (input : String) (timeLimit : Nat) (h : ∀ p, env.unlinkThrows p = none) :
    (executeCode env files code language input timeLimit).result.isSome = true := by
  cases code <;> cases language <;> try (simp [executeCode, catchAndCleanup]; done)
  rename_i code language
  by_cases hd : isDangerous code = true
  · simp [executeCode, hd, catchAndCleanup]
  · rcases hc : checkCompilerAvailability env { files := files, trace := [] } language with
      ⟨check, w1⟩
    cases check with
    | unavailable msg => simp [executeCode, hd, hc]
    | available =>
      cases hs : selectRunner (toLowerCase language) with
      | none => simp [executeCode, hd, hc, hs, catchAndCleanup]
      | some runner =>
        obtain ⟨r, hr⟩ := Option.isSome_iff_exists.mp
          (callRunner_settles runner env w1 code input timeLimit h)
        simp [executeCode, hd, hc, hs, finishRun, hr]

theorem executeCode_of_unavailable (env : Env) (files : List String)
    (code language input : String) (timeLimit : Nat) (msg : String) (w1 : World)
    (hsafe : isDangerous code = false)
    (hprobe : checkCompilerAvailability env { files := files, trace := [] } language =
      (.unavailable msg, w1)) :
    executeCode env files (.str code) (.str language) input timeLimit =
      ⟨some { success := false, output := "", error := msg, executionTime := 0,
              compilerError := true, runtimeError := false },
        cleanupTempFiles env w1 env.sessionId⟩ := by
  simp [executeCode, hsafe, hprobe]

/-- C7: when the availability probe reports the toolchain as unavailable, the result is a
failure with empty output and the message of the probe; no file is written and the only
command started, if any, is one version query of the probe. -/
theorem executeCode_toolchain_missing (env : Env) (files : List String)
    (code language input : String) (timeLimit : Nat) (msg : String) (w1 : World)
    (hsafe : isDangerous code = false)
    (hprobe : checkCompilerAvailability env { files := files, trace := [] } language =
      (.unavailable msg, w1)) :
    (executeCode env files (.str code) (.str language) input timeLimit).result =
      some { success := false, output := "", error := msg, executionTime := 0,
             compilerError := true, runtimeError := false } ∧
    writes (executeCode env files (.str code) (.str language) input timeLimit).world.trace = [] ∧
    (spawns (executeCode env files (.str code) (.str language) input timeLimit).world.trace).length
      ≤ 1 ∧
    ∀ c ∈ spawns (executeCode env files (.str code) (.str language) input timeLimit).world.trace,
      c.1 ∈ versionQueries := by
  rw [executeCode_of_unavailable env files code language input timeLimit msg w1 hsafe hprobe]
  refine ⟨rfl, ?_⟩
  simp only [cleanupTempFiles_writes, cleanupTempFiles_spawns]
  rcases checkCompilerAvailability_cases env { files := files, trace := [] } language with
    ⟨runner, q, m, -, hq, -, hc⟩ | ⟨-, hc⟩
  · rw [hc] at hprobe
    have hw : w1 = World.emit { files := files, trace := [] } (.spawn q none) := by
      simp only [runProbe] at hprobe
      split at hprobe <;> simp_all
    subst hw
    refine ⟨rfl, by simp [World.emit, spawns], ?_⟩
    intro c hmem
    simp only [World.emit, List.nil_append, spawns, List.mem_singleton] at hmem
    subst hmem
    exact hq
  · rw [hc] at hprobe
    have hw : w1 = { files := files, trace := [] } := by simp_all
    subst hw
    exact ⟨rfl, by simp [spawns], by simp [spawns]⟩

/-- Witness of C7: Python is requested on a host without `python3`. -/
theorem executeCode_toolchain_missing_witness :
    (isDangerous "print(5)" = false ∧
      checkCompilerAvailability { sampleEnv with probe := false } { files := [], trace := [] }
        "python" =
        (.unavailable "Python3 not found. Please install Python 3.",
          { files := [], trace := [.spawn "python3 --version" none] })) ∧
    ((executeCode { sampleEnv with probe := false } [] (.str "print(5)") (.str "python") ""
        2000).result =
      some { success := false, output := "",
             error := "Python3 not found. Please install Python 3.", executionTime := 0,
             compilerError := true, runtimeError := false } ∧
    writes (executeCode { sampleEnv with probe := false } [] (.str "print(5)") (.str "python") ""
      2000).world.trace = [] ∧
    (spawns (executeCode { sampleEnv with probe := false } [] (.str "print(5)") (.str "python") ""
      2000).world.trace).length ≤ 1 ∧
    ∀ c ∈ spawns (executeCode { sampleEnv with probe := false } [] (.str "print(5)")
      (.str "python") "" 2000).world.trace, c.1 ∈ versionQueries) :=
  ⟨⟨by decide, by decide⟩,
    executeCode_toolchain_missing { sampleEnv with probe := false } [] "print(5)" "python" ""
      2000 "Python3 not found. Please install Python 3."
      { files := [], trace := [.spawn "python3 --version" none] } (by decide) (by decide)⟩

/-- C8: when the probe succeeds, the lower-cased language selects the wrapper that is run:
`java` the Java wrapper, `python` and `python3` the Python wrapper, `cpp` and `c++` the C++
wrapper, `c` the C wrapper; a language string with the same lower-cased form gives the same
run. -/
theorem executeCode_dispatch (env : Env) (files : List String) (code language input : String)
    (timeLimit : Nat) (w1 : World)
    (hsafe : isDangerous code = false)
    (hprobe : checkCompilerAvailability env { files := files, trace := [] } language =
      (.available, w1)) :
    (selectRunner "java" = some .java ∧ selectRunner "python" = some .python ∧
      selectRunner "python3" = some .python ∧ selectRunner "cpp" = some .cpp ∧
      selectRunner "c++" = some .cpp ∧ selectRunner "c" = some .c) ∧
    (∃ runner, selectRunner (toLowerCase language) = some runner ∧
      executeCode env files (.str code) (.str language) input timeLimit =
        finishRun env (callRunner runner env w1 code input timeLimit)) ∧
    ∀ language2, toLowerCase language2 = toLowerCase language →
      executeCode env files (.str code) (.str language2) input timeLimit =
        executeCode env files (.str code) (.str language) input timeLimit := by
  have hsel : ∃ runner, selectRunner (toLowerCase language) = some runner := by
    rcases checkCompilerAvailability_cases env { files := files, trace := [] } language with
      ⟨runner, -, -, hr, -, -, -⟩ | ⟨-, hc⟩
    · exact ⟨runner, hr⟩
    · rw [hc] at hprobe
      simp at hprobe
  obtain ⟨runner, hr⟩ := hsel
  refine ⟨by decide, ⟨runner, hr, by simp [executeCode, hsafe, hprobe, hr]⟩, ?_⟩
  intro language2 h2
  have hc := checkCompilerAvailability_congr env { files := files, trace := [] } language
    language2 h2 (by simp [hr])
  simp [executeCode, hsafe, hc, h2, hprobe, hr]

/-- Witness of C8: `Python3` is dispatched to the Python wrapper. -/
theorem executeCode_dispatch_witness :
    (isDangerous "print(5)" = false ∧
      checkCompilerAvailability sampleEnv { files := [], trace := [] } "Python3" =
        (.available, { files := [], trace := [.spawn "python3 --version" none] })) ∧
    ((selectRunner "java" = some .java ∧ selectRunner "python" = some .python ∧
      selectRunner "python3" = some .python ∧ selectRunner "cpp" = some .cpp ∧
      selectRunner "c++" = some .cpp ∧ selectRunner "c" = some .c) ∧
    (∃ runner, selectRunner (toLowerCase "Python3") = some runner ∧
      executeCode sampleEnv [] (.str "print(5)") (.str "Python3") "4" 2000 =
        finishRun sampleEnv (callRunner runner sampleEnv
          { files := [], trace := [.spawn "python3 --version" none] } "print(5)" "4" 2000)) ∧
    ∀ language2, toLowerCase language2 = toLowerCase "Python3" →
      executeCode sampleEnv [] (.str "print(5)") (.str language2) "4" 2000 =
        executeCode sampleEnv [] (.str "print(5)") (.str "Python3") "4" 2000) :=
  ⟨⟨by decide, by decide⟩,
    executeCode_dispatch sampleEnv [] "print(5)" "Python3" "4" 2000
      { files := [], trace := [.spawn "python3 --version" none] } (by decide) (by decide)⟩

/-- The `switch` of `executeCode` and of the probe knows exactly six lower-cased names. -/
theorem selectRunner_eq_none_iff (lowered : String) :
    selectRunner lowered = none ↔
      lowered ∉ ["java", "python", "python3", "cpp", "c++", "c"] := by
  unfold selectRunner
  split <;> simp_all

/-- C9 (amended): for every language whose lower-cased form is none of java, python, python3,
cpp, c++, c, and every source that the denylist accepts, `executeCode` returns a record with
`success` false, the error `Unsupported language: ` followed by the language as given, an empty
output and the execution time 0; no process is started and no file is written. The record is
the one of the availability probe, so it carries the flag `compilerError`, as the record of a
missing toolchain does, and not the flag `runtimeError` of a refused source. -/
theorem executeCode_unsupported (env : Env) (files : List String) (code language input : String)
    (timeLimit : Nat) (hsafe : isDangerous code = false)
    (hlang : toLowerCase language ∉ ["java", "python", "python3", "cpp", "c++", "c"]) :
    (executeCode env files (.str code) (.str language) input timeLimit).result =
      some { success := false, output := "", error := "Unsupported language: " ++ language,
             executionTime := 0, compilerError := true, runtimeError := false } ∧
    spawns (executeCode env files (.str code) (.str language) input timeLimit).world.trace = [] ∧
    writes (executeCode env files (.str code) (.str language) input timeLimit).world.trace = [] := by
  have hnone := (selectRunner_eq_none_iff (toLowerCase language)).2 hlang
  have hc : checkCompilerAvailability env { files := files, trace := [] } language =
      (.unavailable ("Unsupported language: " ++ language), { files := files, trace := [] }) := by
    rcases checkCompilerAvailability_cases env { files := files, trace := [] } language with
      ⟨runner, -, -, hr, -, -, -⟩ | ⟨-, hc⟩
    · rw [hnone] at hr
      cases hr
    · exact hc
  rw [executeCode_of_unavailable env files code language input timeLimit _ _ hsafe hc]
  refine ⟨rfl, ?_⟩
  simp only [cleanupTempFiles_writes, cleanupTempFiles_spawns]
  exact ⟨rfl, rfl⟩

/-- Witness of C9 (amended): the language `Ruby`, with a source the denylist accepts, on a host
where every toolchain is installed. -/
theorem executeCode_unsupported_witness :
    (isDangerous "puts 5" = false ∧
      toLowerCase "Ruby" ∉ ["java", "python", "python3", "cpp", "c++", "c"]) ∧
    ((executeCode sampleEnv [] (.str "puts 5") (.str "Ruby") "" 2000).result =
      some { success := false, output := "", error := "Unsupported language: " ++ "Ruby",
             executionTime := 0, compilerError := true, runtimeError := false } ∧
    spawns (executeCode sampleEnv [] (.str "puts 5") (.str "Ruby") "" 2000).world.trace = [] ∧
    writes (executeCode sampleEnv [] (.str "puts 5") (.str "Ruby") "" 2000).world.trace = []) :=
  ⟨⟨by decide, by decide⟩,
    executeCode_unsupported sampleEnv [] "puts 5" "Ruby" "" 2000 (by decide) (by decide)⟩

/-- C9 (counterexample): the language `ruby` is reported with the flag of a missing toolchain
(`compilerError`, execution time 0), exactly like Python on a host without `python3`, and unlike
the refusal of a denylisted source, which carries `runtimeError`: the result is not classified
apart from a missing toolchain. -/
theorem executeCode_ruby_flagged_like_missing_toolchain :
    (executeCode sampleEnv [] (.str "puts 5") (.str "ruby") "" 2000).result =
      some { success := false, output := "", error := "Unsupported language: ruby",
             executionTime := 0, compilerError := true, runtimeError := false } ∧
    (executeCode { sampleEnv with probe := false } [] (.str "print(5)") (.str "python") ""
        2000).result =
      some { success := false, output := "",
             error := "Python3 not found. Please install Python 3.", executionTime := 0,
             compilerError := true, runtimeError := false } ∧
    (executeCode sampleEnv [] (.str "import os") (.str "python") "" 2000).result =
      some { success := false, output := "", error := "Potentially dangerous code detected",
             executionTime := 30, compilerError := false, runtimeError := true } := by
  decide

/-- C10 (at the failing input): a C++ program is compiled and run, and removing the
executable inside the callback of the run throws; the promise of the runner never settles and
`executeCode` returns nothing, and its cleanup does not run. -/
theorem executeCode_never_settles_when_unlink_throws :
    (executeCode { sampleEnv with unlinkThrows := fun _ => some "EBUSY: resource busy or locked" }
      [] (.str "int main()\x7b\x7d") (.str "cpp") "" 2000).result = none ∧
    (executeCode { sampleEnv with unlinkThrows := fun _ => some "EBUSY: resource busy or locked" }
      [] (.str "int main()\x7b\x7d") (.str "cpp") "" 2000).world.files =
        ["/srv/temp/u1.cpp", "/srv/temp/u1"] := by
  decide

/-! ## The result record -/

theorem jsOr_ne_empty (a : Option String) (b : String) (hb : b ≠ "") : jsOr a b ≠ "" := by
  unfold jsOr
  split
  · split <;> assumption
  · exact hb

theorem catchPython_error (e : Rejection) : (catchPython e).error ≠ "" :=
  jsOr_ne_empty _ _ (jsOr_ne_empty _ _ (by decide))

theorem catchCpp_error (e : Rejection) : (catchCpp e).error ≠ "" :=
  jsOr_ne_empty _ _ (jsOr_ne_empty _ _ (by decide))

theorem catchC_error (e : Rejection) : (catchC e).error ≠ "" :=
  jsOr_ne_empty _ _ (jsOr_ne_empty _ _ (by decide))

theorem catchJava_error (e : Rejection) : (catchJava e).error ≠ "" :=
  jsOr_ne_empty _ _ (jsOr_ne_empty _ _ (jsOr_ne_empty _ _ (by decide)))

theorem callRunner_wellFormed (runner : Runner) (env : Env) (w : World) (code input : String)
    (timeLimit : Nat) (r : RunnerResult)
    (h : (callRunner runner env w code input timeLimit).result = some r) : WellFormed r := by
  have hp := catchPython_error
  have hcpp := catchCpp_error
  have hc := catchC_error
  have hj := catchJava_error
  cases runner
  · simp only [callRunner, executeJavaCode] at h
    split at h
    · cases h; exact Or.inr ⟨rfl, rfl, by decide⟩
    · split at h
      · cases h; exact Or.inr ⟨rfl, rfl, hj _⟩
      · split at h
        · cases h; exact Or.inr ⟨rfl, rfl, hj _⟩
        · split at h
          · cases h
          · cases h; exact Or.inl ⟨rfl, rfl⟩
          · cases h; exact Or.inr ⟨rfl, rfl, hj _⟩
  · simp only [callRunner, executePythonCode] at h
    split at h
    · cases h; exact Or.inr ⟨rfl, rfl, hp _⟩
    · split at h
      · cases h; exact Or.inr ⟨rfl, rfl, hp _⟩
      · split at h
        · cases h
        · cases h; exact Or.inl ⟨rfl, rfl⟩
        · cases h; exact Or.inr ⟨rfl, rfl, hp _⟩
  · simp only [callRunner, executeCppCode] at h
    split at h
    · cases h; exact Or.inr ⟨rfl, rfl, hcpp _⟩
    · split at h
      · cases h; exact Or.inr ⟨rfl, rfl, hcpp _⟩
      · split at h
        · cases h
        · cases h; exact Or.inl ⟨rfl, rfl⟩
        · cases h; exact Or.inr ⟨rfl, rfl, hcpp _⟩
  · simp only [callRunner, executeCCode] at h
    split at h
    · cases h; exact Or.inr ⟨rfl, rfl, hc _⟩
    · split at h
      · cases h; exact Or.inr ⟨rfl, rfl, hc _⟩
      · split at h
        · cases h
        · cases h; exact Or.inl ⟨rfl, rfl⟩
        · cases h; exact Or.inr ⟨rfl, rfl, hc _⟩

theorem unsupported_message_ne_empty (language : String) :
    "Unsupported language: " ++ language ≠ "" := by
  intro h
  have := congrArg String.length h
  simp only [String.length_append] at this
  have h0 : "Unsupported language: ".length = 22 := by decide
  rw [h0] at this
  simp at this

/-- The paths through `executeCode`, by the check that decides them. -/
theorem executeCode_cases (env : Env) (files : List String) (code language : JSVal)
    (input : String) (timeLimit : Nat) :
    ((code.isString = false ∨ language.isString = false) ∧
      executeCode env files code language input timeLimit =
        catchAndCleanup env { files := files, trace := [] } "Invalid input types") ∨
    (∃ c l, code = .str c ∧ language = .str l ∧ isDangerous c = true ∧
      executeCode env files code language input timeLimit =
        catchAndCleanup env { files := files, trace := [] }
          "Potentially dangerous code detected") ∨
    (∃ c l msg w1, code = .str c ∧ language = .str l ∧ isDangerous c = false ∧
      checkCompilerAvailability env { files := files, trace := [] } l = (.unavailable msg, w1) ∧
      msg ≠ "" ∧
      executeCode env files code language input timeLimit =
        ⟨some { success := false, output := "", error := msg, executionTime := 0,
                compilerError := true, runtimeError := false },
          cleanupTempFiles env w1 env.sessionId⟩) ∨
    (∃ c l w1 runner, code = .str c ∧ language = .str l ∧ isDangerous c = false ∧
      checkCompilerAvailability env { files := files, trace := [] } l = (.available, w1) ∧
      selectRunner (toLowerCase l) = some runner ∧
      executeCode env files code language input timeLimit =
        finishRun env (callRunner runner env w1 c input timeLimit)) := by
  by_cases hty : code.isString = false ∨ language.isString = false
  · left
    refine ⟨hty, ?_⟩
    cases code <;> cases language <;> simp_all [executeCode, JSVal.isString]
  · right
    obtain ⟨c, rfl⟩ : ∃ c, code = .str c := by
      cases code <;> simp_all [JSVal.isString]
    obtain ⟨l, rfl⟩ : ∃ l, language = .str l := by
      cases language <;> simp_all [JSVal.isString]
    by_cases hd : isDangerous c = true
    · left
      exact ⟨c, l, rfl, rfl, hd, by simp [executeCode, hd]⟩
    · right
      have hd' : isDangerous c = false := by simpa using hd
      rcases checkCompilerAvailability_cases env { files := files, trace := [] } l with
        ⟨runner, q, m, hr, -, hm, hc⟩ | ⟨-, hc⟩
      · by_cases hp : env.probe = true
        · right
          refine ⟨c, l, World.emit { files := files, trace := [] } (.spawn q none), runner,
            rfl, rfl, hd', ?_, hr, ?_⟩
          · rw [hc]; simp only [runProbe, hp, if_true]
          · simp [executeCode, hd', hc, runProbe, hp, hr]
        · left
          refine ⟨c, l, m, World.emit { files := files, trace := [] } (.spawn q none),
            rfl, rfl, hd', ?_, hm, ?_⟩
          · rw [hc]; simp only [runProbe, hp]; rfl
          · simp [executeCode, hd', hc, runProbe, hp]
      · left
        exact ⟨c, l, _, _, rfl, rfl, hd', hc, unsupported_message_ne_empty l,
          by simp [executeCode, hd', hc]⟩

theorem finishRun_result (env : Env) (run : Run RunnerResult) (r : ExecutionResult)
    (h : (finishRun env run).result = some r) :
    ∃ rr, run.result = some rr ∧
      r = { success := rr.success, output := rr.output, error := rr.error,
            executionTime := env.endTime - env.startTime, compilerError := false,
            runtimeError := false } := by
  unfold finishRun at h
  split at h
  · cases h
  · rename_i rr hrr
    exact ⟨rr, hrr, by simpa using h.symm⟩

/-- C11: in every result that `executeCode` returns, the error is the empty string exactly
when `success` is true. -/
theorem executeCode_error_empty_iff_success (env : Env) (files : List String)
    (code language : JSVal) (input : String) (timeLimit : Nat) (r : ExecutionResult)
    (h : (executeCode env files code language input timeLimit).result = some r) :
    r.error = "" ↔ r.success = true := by
  rcases executeCode_cases env files code language input timeLimit with
    ⟨-, he⟩ | ⟨c, l, -, -, -, he⟩ | ⟨c, l, msg, w1, -, -, -, -, hm, he⟩ |
    ⟨c, l, w1, runner, -, -, -, -, -, he⟩
  · rw [he, catchAndCleanup_result _ _ _ (by decide)] at h
    cases h
    simp
  · rw [he, catchAndCleanup_result _ _ _ (by decide)] at h
    cases h
    simp
  · rw [he] at h
    cases h
    simp [hm]
  · rw [he] at h
    obtain ⟨rr, hrr, rfl⟩ := finishRun_result env _ r h
    rcases callRunner_wellFormed runner env w1 c input timeLimit rr hrr with
      ⟨hs, hrre⟩ | ⟨hs, -, hrre⟩
    · simp [hs, hrre]
    · simp [hs, hrre]

/-- Witness of C11: the successful Python run of the sample host. -/
theorem executeCode_error_empty_iff_success_witness :
    (executeCode sampleEnv [] (.str "print(5)") (.str "python") "4" 2000).result =
      some { success := true, output := "5", error := "", executionTime := 30,
             compilerError := false, runtimeError := false } ∧
    ((ExecutionResult.mk true "5" "" 30 false false).error = "" ↔
      (ExecutionResult.mk true "5" "" 30 false false).success = true) :=
  ⟨by decide,
    executeCode_error_empty_iff_success sampleEnv [] (.str "print(5)") (.str "python") "4" 2000
      _ (by decide)⟩

/-- C12 (counterexample): a C++ submission that fails to compile with the compiler output
`boom` and one that compiles and then fails at run time with the error output `boom` are
rejected by the runner with different types, but `executeCode` returns the same record for
both, with neither flag set. -/
theorem executeCode_compile_and_runtime_failure_same_record :
    (executeCpp { sampleEnv with compile := failedProc "boom" } { files := [], trace := [] }
        "/srv/temp/u1.cpp" "").result.map rejectionType = some (some "compilation") ∧
    (executeCpp { sampleEnv with run := failedProc "boom" } { files := [], trace := [] }
        "/srv/temp/u1.cpp" "").result.map rejectionType = some (some "runtime") ∧
    (executeCode { sampleEnv with compile := failedProc "boom" } [] (.str "int main()\x7b\x7d")
        (.str "cpp") "" 2000).result =
      some { success := false, output := "", error := "boom", executionTime := 30,
             compilerError := false, runtimeError := false } ∧
    (executeCode { sampleEnv with run := failedProc "boom" } [] (.str "int main()\x7b\x7d")
        (.str "cpp") "" 2000).result =
      some { success := false, output := "", error := "boom", executionTime := 30,
             compilerError := false, runtimeError := false } := by
  decide

/-- C12 (amended): a result of `executeCode` carries at most one of the flags `compilerError`
and `runtimeError`, and a successful result carries none; `runtimeError` is set exactly when
an argument is not a string or the source is denylisted, `compilerError` exactly when the
availability probe reports the language as unavailable; the failures of a runner carry
neither flag. -/
theorem executeCode_flags (env : Env) (files : List String) (code language : JSVal)
    (input : String) (timeLimit : Nat) (r : ExecutionResult)
    (h : (executeCode env files code language input timeLimit).result = some r) :
    (r.success = true → r.compilerError = false ∧ r.runtimeError = false) ∧
    ¬(r.compilerError = true ∧ r.runtimeError = true) ∧
    (r.runtimeError = true ↔
      (code.isString = false ∨ language.isString = false ∨
        ∃ c, code = .str c ∧ isDangerous c = true)) ∧
    (r.compilerError = true ↔
      ∃ c l msg w1, code = .str c ∧ language = .str l ∧ isDangerous c = false ∧
        checkCompilerAvailability env { files := files, trace := [] } l =
          (.unavailable msg, w1)) := by
  rcases executeCode_cases env files code language input timeLimit with
    ⟨hty, he⟩ | ⟨c, l, rfl, rfl, hd, he⟩ | ⟨c, l, msg, w1, rfl, rfl, hd, hc, hm, he⟩ |
    ⟨c, l, w1, runner, rfl, rfl, hd, hc, -, he⟩
  · rw [he, catchAndCleanup_result _ _ _ (by decide)] at h
    cases h
    refine ⟨by simp, by simp, ?_, ?_⟩
    · simp only [true_iff]
      rcases hty with hty | hty
      · exact Or.inl hty
      · exact Or.inr (Or.inl hty)
    · simp only [Bool.false_eq_true, false_iff]
      rintro ⟨c, l, msg, w, rfl, rfl, -⟩
      simp [JSVal.isString] at hty
  · rw [he, catchAndCleanup_result _ _ _ (by decide)] at h
    cases h
    refine ⟨by simp, by simp, ?_, ?_⟩
    · simp only [true_iff]
      exact Or.inr (Or.inr ⟨c, rfl, hd⟩)
    · simp only [Bool.false_eq_true, false_iff]
      rintro ⟨c', l', msg, w, hc', -, hd', -⟩
      cases hc'
      simp [hd] at hd'
  · rw [he] at h
    cases h
    refine ⟨by simp, by simp, ?_, ?_⟩
    · simp only [Bool.false_eq_true, false_iff, JSVal.isString, not_or]
      refine ⟨by simp, by simp, ?_⟩
      rintro ⟨c', hc', hd'⟩
      cases hc'
      simp [hd] at hd'
    · simp only [true_iff]
      exact ⟨c, l, msg, w1, rfl, rfl, hd, hc⟩
  · rw [he] at h
    obtain ⟨rr, -, rfl⟩ := finishRun_result env _ r h
    refine ⟨by simp, by simp, ?_, ?_⟩
    · simp only [Bool.false_eq_true, false_iff, JSVal.isString, not_or]
      refine ⟨by simp, by simp, ?_⟩
      rintro ⟨c', hc', hd'⟩
      cases hc'
      simp [hd] at hd'
    · simp only [Bool.false_eq_true, false_iff]
      rintro ⟨c', l', msg, w, hc', hl', -, hu⟩
      cases hc'
      cases hl'
      rw [hc] at hu
      simp at hu

/-- Witness of C12 (amended): Python on a host without `python3`. -/
theorem executeCode_flags_witness :
    (executeCode { sampleEnv with probe := false } [] (.str "print(5)") (.str "python") ""
        2000).result =
      some { success := false, output := "",
             error := "Python3 not found. Please install Python 3.", executionTime := 0,
             compilerError := true, runtimeError := false } ∧
    ((false = true → true = false ∧ false = false) ∧
    ¬(true = true ∧ false = true) ∧
    (false = true ↔
      ((JSVal.str "print(5)").isString = false ∨ (JSVal.str "python").isString = false ∨
        ∃ c, JSVal.str "print(5)" = .str c ∧ isDangerous c = true)) ∧
    (true = true ↔
      ∃ c l msg w1, JSVal.str "print(5)" = .str c ∧ JSVal.str "python" = .str l ∧
        isDangerous c = false ∧
        checkCompilerAvailability { sampleEnv with probe := false } { files := [], trace := [] }
          l = (.unavailable msg, w1))) :=
  ⟨by decide,
    executeCode_flags { sampleEnv with probe := false } [] (.str "print(5)") (.str "python") ""
      2000 (ExecutionResult.mk false "" "Python3 not found. Please install Python 3." 0 true false)
      (by decide)⟩

/-- The time limit passed to `executeCode` does not influence the run. -/
theorem executeCode_timeLimit_irrelevant (env : Env) (files : List String)
    (code language : JSVal) (input : String) (t1 t2 : Nat) :
    executeCode env files code language input t1 =
      executeCode env files code language input t2 := by
  have hr : ∀ runner w c, callRunner runner env w c input t1 = callRunner runner env w c input t2 := by
    intro runner w c
    cases runner <;> rfl
  unfold executeCode
  simp only [hr]

/-- C13 (at the failing input): with a time limit of 1000 ms, a Python program that loops
forever is started with the kill timeout 5000 and reported as `Execution timeout (5 seconds)`. -/
theorem executeCode_timeLimit_1000_runs_with_5000 :
    spawns (executeCode { sampleEnv with run := killedProc } [] (.str "while True: pass")
        (.str "python") "" 1000).world.trace =
      [("python3 --version", none), ("python3 \"/srv/temp/u1.py\"", some 5000)] ∧
    (executeCode { sampleEnv with run := killedProc } [] (.str "while True: pass")
        (.str "python") "" 1000).result =
      some { success := false, output := "", error := "Execution timeout (5 seconds)",
             executionTime := 30, compilerError := false, runtimeError := false } := by
  decide

/-! ## The runners: classification of the run -/

theorem jsOr_some (a b : String) : jsOr (some a) b = if a = "" then b else a := rfl

/-- The runner `executePython` settles by the outcome of the run: timeout record when the
process was killed, `runtime` with the error output when it failed otherwise, the standard
output when it ended normally. The runners `executeCpp` and `executeJava` do so after a
successful compilation when removing the artifact in the callback does not throw. -/
theorem runners_classify_run (env : Env) (w : World) (filePath input : String) :
    ClassifiesRun env.run (executePython env w filePath input).result ∧
    (env.compile.error = none → (∀ p, env.unlinkThrows p = none) →
      ClassifiesRun env.run (executeCpp env w filePath input).result ∧
      ClassifiesRun env.run (executeJava env w filePath input).result) := by
  refine ⟨?_, ?_⟩
  · refine ⟨?_, ?_, ?_⟩
    · intro e he hk
      simp [executePython, he, hk]
    · intro e he hk
      simp [executePython, he, hk, jsOr_some]
    · intro he
      simp [executePython, he]
  · intro hc hu
    refine ⟨⟨?_, ?_, ?_⟩, ⟨?_, ?_, ?_⟩⟩
    · intro e he hk
      simp [executeCpp, hc, hu, he, hk]
    · intro e he hk
      simp [executeCpp, hc, hu, he, hk, jsOr_some]
    · intro he
      simp [executeCpp, hc, hu, he]
    · intro e he hk
      simp [executeJava, hc, hu, he, hk]
    · intro e he hk
      simp [executeJava, hc, hu, he, hk, jsOr_some]
    · intro he
      simp [executeJava, hc, hu, he]

/-- On the sample host the compiler succeeds and no removal throws, so the two compiled
runners classify the run. -/
theorem runners_classify_run_witness :
    (sampleEnv.compile.error = none ∧ ∀ p, sampleEnv.unlinkThrows p = none) ∧
    (ClassifiesRun sampleEnv.run
      (executeCpp sampleEnv { files := [], trace := [] } "/srv/temp/u1.cpp" "").result ∧
    ClassifiesRun sampleEnv.run
      (executeJava sampleEnv { files := [], trace := [] } "/srv/temp/u1.cpp" "").result) :=
  ⟨⟨rfl, fun _ => rfl⟩,
    (runners_classify_run sampleEnv { files := [], trace := [] } "/srv/temp/u1.cpp" "").2 rfl
      (fun _ => rfl)⟩

/-- C14 (at the failing input): the compiled program is killed on its timeout and removing
the artifact in the callback of the run throws. `executePython` rejects with the timeout
record, but the promises of `executeCpp` and `executeJava` never settle: they do not reject
with type `timeout`, so they do not classify the run. -/
theorem runners_never_settle_when_unlink_throws :
    (executePython
      { sampleEnv with compile := okProc "" ["/srv/temp/u1", "/srv/temp/Main.class"],
                       run := killedProc,
                       unlinkThrows := fun _ => some "EBUSY: resource busy or locked" }
      { files := [], trace := [] } "/srv/temp/u1.py" "").result =
      some (.error { error := some "Execution timeout (5 seconds)",
                     stderr := some "Time limit exceeded", message := none,
                     type := some "timeout" }) ∧
    (executeCpp
      { sampleEnv with compile := okProc "" ["/srv/temp/u1", "/srv/temp/Main.class"],
                       run := killedProc,
                       unlinkThrows := fun _ => some "EBUSY: resource busy or locked" }
      { files := [], trace := [] } "/srv/temp/u1.cpp" "").result = none ∧
    (executeJava
      { sampleEnv with compile := okProc "" ["/srv/temp/u1", "/srv/temp/Main.class"],
                       run := killedProc,
                       unlinkThrows := fun _ => some "EBUSY: resource busy or locked" }
      { files := [], trace := [] } "/srv/temp/Main.java" "").result = none ∧
    ¬ ClassifiesRun killedProc
      (executeCpp
        { sampleEnv with compile := okProc "" ["/srv/temp/u1", "/srv/temp/Main.class"],
                         run := killedProc,
                         unlinkThrows := fun _ => some "EBUSY: resource busy or locked" }
        { files := [], trace := [] } "/srv/temp/u1.cpp" "").result ∧
    ¬ ClassifiesRun killedProc
      (executeJava
        { sampleEnv with compile := okProc "" ["/srv/temp/u1", "/srv/temp/Main.class"],
                         run := killedProc,
                         unlinkThrows := fun _ => some "EBUSY: resource busy or locked" }
        { files := [], trace := [] } "/srv/temp/Main.java" "").result := by
  refine ⟨rfl, rfl, rfl, ?_, ?_⟩
  · intro h
    have h1 := h.1 { killed := true, message := "Command failed" } rfl rfl
    cases h1
  · intro h
    have h1 := h.1 { killed := true, message := "Command failed" } rfl rfl
    cases h1

/-! ## The coordinator: compilation failures and normal ends -/

theorem sanitizeFilePath_pathJoin (dir name : String) :
    sanitizeFilePath (pathJoin dir name) dir = some (pathJoin dir name) := by
  have hne : pathJoin dir name ≠ "" := by
    intro h
    have := congrArg String.length h
    simp only [pathJoin, String.length_append] at this
    have h1 : "/".length = 1 := by decide
    rw [h1] at this
    simp at this
  have hpre : dir.data.isPrefixOf (pathJoin dir name).data = true := by
    simp [pathJoin, String.data_append, List.append_assoc]
  simp [sanitizeFilePath, hne, hpre]

theorem executeCode_of_available (env : Env) (files : List String) (code language input : String)
    (timeLimit : Nat) (w1 : World) (runner : Runner)
    (hsafe : isDangerous code = false)
    (hprobe : checkCompilerAvailability env { files := files, trace := [] } language =
      (.available, w1))
    (hsel : selectRunner (toLowerCase language) = some runner) :
    executeCode env files (.str code) (.str language) input timeLimit =
      finishRun env (callRunner runner env w1 code input timeLimit) := by
  simp [executeCode, hsafe, hprobe, hsel]

/-- C15: when the compiler of a C, C++ or Java submission fails with the non-empty error
output `s`, the result is a failure with empty output and the error `s`, and the commands
started are the probe, the `javac` check of the Java wrapper and the compiler: the compiled
program is never run. -/
theorem executeCode_compile_failure (env : Env) (files : List String)
    (code language input : String) (timeLimit : Nat) (w1 : World) (runner : Runner)
    (e : ProcError) (s : String)
    (hsafe : isDangerous code = false)
    (hprobe : checkCompilerAvailability env { files := files, trace := [] } language =
      (.available, w1))
    (hsel : selectRunner (toLowerCase language) = some runner)
    (hcompiled : runner ≠ .python)
    (hjavac : runner = .java → env.javacCheck = true)
    (hwrite : ∀ p, env.writeThrows p = none)
    (hfail : env.compile.error = some e) (hs : env.compile.stderr = s) (hne : s ≠ "") :
    (executeCode env files (.str code) (.str language) input timeLimit).result =
      some { success := false, output := "", error := s,
             executionTime := env.endTime - env.startTime, compilerError := false,
             runtimeError := false } ∧
    spawns (executeCode env files (.str code) (.str language) input timeLimit).world.trace =
      spawns w1.trace ++ compileCommands runner env code := by
  rw [executeCode_of_available env files code language input timeLimit w1 runner hsafe hprobe hsel]
  subst hs
  cases runner with
  | python => exact absurd rfl hcompiled
  | java =>
    have hj := hjavac rfl
    simp [finishRun, callRunner, executeJavaCode, hj, sanitizeFilePath_pathJoin, hwrite,
      executeJava, hfail, catchJava, jsOr, hne, cleanupTempFiles_spawns, World.write, World.emit,
      World.create, spawns_append, spawns, compileCommands]
  | cpp =>
    simp [finishRun, callRunner, executeCppCode, sanitizeFilePath_pathJoin, hwrite,
      executeCpp, hfail, catchCpp, jsOr, hne, cleanupTempFiles_spawns, World.write, World.emit,
      World.create, spawns_append, spawns, compileCommands]
  | c =>
    simp [finishRun, callRunner, executeCCode, sanitizeFilePath_pathJoin, hwrite,
      executeCpp, hfail, catchC, jsOr, hne, cleanupTempFiles_spawns, World.write, World.emit,
      World.create, spawns_append, spawns, compileCommands]

/-- Witness of C15: a C++ submission on which `g++` fails with the output `boom`. -/
theorem executeCode_compile_failure_witness :
    (isDangerous "int main(" = false ∧
      checkCompilerAvailability { sampleEnv with compile := failedProc "boom" }
        { files := [], trace := [] } "cpp" =
        (.available, { files := [], trace := [.spawn "g++ --version" none] }) ∧
      selectRunner (toLowerCase "cpp") = some .cpp ∧ Runner.cpp ≠ .python ∧
      (∀ p, ({ sampleEnv with compile := failedProc "boom" } : Env).writeThrows p = none) ∧
      ({ sampleEnv with compile := failedProc "boom" } : Env).compile.error =
        some { killed := false, message := "Command failed" } ∧
      ({ sampleEnv with compile := failedProc "boom" } : Env).compile.stderr = "boom" ∧
      "boom" ≠ "") ∧
    ((executeCode { sampleEnv with compile := failedProc "boom" } [] (.str "int main(")
        (.str "cpp") "" 2000).result =
      some { success := false, output := "", error := "boom",
             executionTime := sampleEnv.endTime - sampleEnv.startTime, compilerError := false,
             runtimeError := false } ∧
    spawns (executeCode { sampleEnv with compile := failedProc "boom" } [] (.str "int main(")
        (.str "cpp") "" 2000).world.trace =
      spawns [Event.spawn "g++ --version" none] ++
        compileCommands .cpp { sampleEnv with compile := failedProc "boom" } "int main(") :=
  ⟨⟨by decide, by decide, by decide, by decide, fun _ => rfl, rfl, rfl, by decide⟩,
    executeCode_compile_failure { sampleEnv with compile := failedProc "boom" } [] "int main("
      "cpp" "" 2000 { files := [], trace := [.spawn "g++ --version" none] } .cpp
      { killed := false, message := "Command failed" } "boom" (by decide) (by decide)
      (by decide) (by decide) (fun h => by cases h) (fun _ => rfl) rfl rfl (by decide)⟩

/-- C16 (counterexample): the Python program prints ` 5` and a newline; the output of the
result is `5`, while removing only the trailing whitespace would leave ` 5`. -/
theorem executeCode_output_loses_leading_whitespace :
    sampleEnv.run.error = none ∧ sampleEnv.run.stdout = " 5\n" ∧
    (executeCode sampleEnv [] (.str "print(' 5')") (.str "python") "" 2000).result =
      some { success := true, output := "5", error := "", executionTime := 30,
             compilerError := false, runtimeError := false } ∧
    trimEnd " 5\n" = " 5" := by
  decide

/-- After a successful compilation and a normal end of the run, `executeCpp` resolves with the
standard output, unless removing the executable threw and the promise never settles. -/
theorem executeCpp_normal_end_result (env : Env) (w : World) (filePath input : String)
    (hc : env.compile.error = none) (hrun : env.run.error = none) :
    (executeCpp env w filePath input).result = none ∨
    (executeCpp env w filePath input).result = some (.ok env.run.stdout) := by
  simp only [executeCpp, hc, hrun]
  split_ifs <;> simp

/-- After a successful compilation and a normal end of the run, `executeJava` resolves with
the standard output, unless removing the class file threw and the promise never settles. -/
theorem executeJava_normal_end_result (env : Env) (w : World) (filePath input : String)
    (hc : env.compile.error = none) (hrun : env.run.error = none) :
    (executeJava env w filePath input).result = none ∨
    (executeJava env w filePath input).result = some (.ok env.run.stdout) := by
  simp only [executeJava, hc, hrun]
  split_ifs <;> simp

/-- A run that ends normally, after accepted input, a successful probe, a successful write and
a successful compilation: `executeCode` either never settles (removing the compiled artifact
threw in the callback of the run) or returns the success with the trimmed output. -/
theorem executeCode_normal_end_or_never (env : Env) (files : List String)
    (code language input : String) (timeLimit : Nat) (w1 : World) (runner : Runner)
    (hsafe : isDangerous code = false)
    (hprobe : checkCompilerAvailability env { files := files, trace := [] } language =
      (.available, w1))
    (hsel : selectRunner (toLowerCase language) = some runner)
    (hjavac : runner = .java → env.javacCheck = true)
    (hwrite : ∀ p, env.writeThrows p = none)
    (hcompile : runner ≠ .python → env.compile.error = none)
    (hrun : env.run.error = none) :
    (executeCode env files (.str code) (.str language) input timeLimit).result = none ∨
    (executeCode env files (.str code) (.str language) input timeLimit).result =
      some { success := true, output := trim env.run.stdout, error := "",
             executionTime := env.endTime - env.startTime, compilerError := false,
             runtimeError := false } := by
  rw [executeCode_of_available env files code language input timeLimit w1 runner hsafe hprobe hsel]
  cases runner with
  | python =>
    right
    simp [finishRun, callRunner, executePythonCode, sanitizeFilePath_pathJoin, hwrite,
      executePython, hrun]
  | java =>
    have hj := hjavac rfl
    have hc := hcompile (by simp)
    simp only [finishRun, callRunner, executeJavaCode, hj, sanitizeFilePath_pathJoin, hwrite,
      Bool.not_true, Bool.false_eq_true, if_false]
    rcases executeJava_normal_end_result env
      ((w1.emit (.spawn "javac -version" none)).write
        (pathJoin env.tempDir (javaClassName code ++ ".java")) (normalizeJava code))
      (pathJoin env.tempDir (javaClassName code ++ ".java")) input hc hrun with h | h
    · left
      simp [h]
    · right
      simp [h]
  | cpp =>
    have hc := hcompile (by simp)
    simp only [finishRun, callRunner, executeCppCode, sanitizeFilePath_pathJoin, hwrite]
    rcases executeCpp_normal_end_result env
      (w1.write (pathJoin env.tempDir (env.sessionId ++ ".cpp")) code)
      (pathJoin env.tempDir (env.sessionId ++ ".cpp")) input hc hrun with h | h
    · left
      simp [h]
    · right
      simp [h]
  | c =>
    have hc := hcompile (by simp)
    simp only [finishRun, callRunner, executeCCode, sanitizeFilePath_pathJoin, hwrite]
    rcases executeCpp_normal_end_result env
      (w1.write (pathJoin env.tempDir (env.sessionId ++ ".c")) code)
      (pathJoin env.tempDir (env.sessionId ++ ".c")) input hc hrun with h | h
    · left
      simp [h]
    · right
      simp [h]

/-- C16 (amended): for a supported language and a source the denylist accepts, when the probe
reports the toolchain available (and the `javac` check of the Java wrapper succeeds), the source
file is written, the compilation of a compiled language succeeds and the run ends normally with
the standard output `s`: every result `executeCode` returns is a success whose output is `s`
with the whitespace removed at both ends, and `executeCode` does return that result when the
language is Python or when removing the compiled artifact in the callback of the run does not
throw. -/
theorem executeCode_normal_end (env : Env) (files : List String)
    (code language input : String) (timeLimit : Nat) (w1 : World) (runner : Runner)
    (hsafe : isDangerous code = false)
    (hprobe : checkCompilerAvailability env { files := files, trace := [] } language =
      (.available, w1))
    (hsel : selectRunner (toLowerCase language) = some runner)
    (hjavac : runner = .java → env.javacCheck = true)
    (hwrite : ∀ p, env.writeThrows p = none)
    (hcompile : runner ≠ .python → env.compile.error = none)
    (hrun : env.run.error = none) :
    (∀ r, (executeCode env files (.str code) (.str language) input timeLimit).result = some r →
      r = { success := true, output := trim env.run.stdout, error := "",
            executionTime := env.endTime - env.startTime, compilerError := false,
            runtimeError := false }) ∧
    ((runner = .python ∨ ∀ p, env.unlinkThrows p = none) →
      (executeCode env files (.str code) (.str language) input timeLimit).result =
        some { success := true, output := trim env.run.stdout, error := "",
               executionTime := env.endTime - env.startTime, compilerError := false,
               runtimeError := false }) := by
  refine ⟨?_, ?_⟩
  · intro r hr
    rcases executeCode_normal_end_or_never env files code language input timeLimit w1 runner
      hsafe hprobe hsel hjavac hwrite hcompile hrun with h | h
    · rw [h] at hr
      cases hr
    · rw [h] at hr
      exact (Option.some.inj hr).symm
  · intro hunlink
    rw [executeCode_of_available env files code language input timeLimit w1 runner hsafe hprobe
      hsel]
    cases runner with
    | python =>
      simp [finishRun, callRunner, executePythonCode, sanitizeFilePath_pathJoin, hwrite,
        executePython, hrun]
    | java =>
      have hu : ∀ p, env.unlinkThrows p = none := hunlink.resolve_left (by simp)
      have hj := hjavac rfl
      have hc := hcompile (by simp)
      simp [finishRun, callRunner, executeJavaCode, hj, sanitizeFilePath_pathJoin, hwrite,
        executeJava, hc, hu, hrun]
    | cpp =>
      have hu : ∀ p, env.unlinkThrows p = none := hunlink.resolve_left (by simp)
      have hc := hcompile (by simp)
      simp [finishRun, callRunner, executeCppCode, sanitizeFilePath_pathJoin, hwrite,
        executeCpp, hc, hu, hrun]
    | c =>
      have hu : ∀ p, env.unlinkThrows p = none := hunlink.resolve_left (by simp)
      have hc := hcompile (by simp)
      simp [finishRun, callRunner, executeCCode, sanitizeFilePath_pathJoin, hwrite,
        executeCpp, hc, hu, hrun]

/-- Witness of C16 (amended): the C++ run of the sample host, where the compiler leaves the
executable and removing it does not throw. -/
theorem executeCode_normal_end_witness :
    (isDangerous "int main()\x7b\x7d" = false ∧
      checkCompilerAvailability sampleEnv { files := [], trace := [] } "cpp" =
        (.available, { files := [], trace := [.spawn "g++ --version" none] }) ∧
      selectRunner (toLowerCase "cpp") = some .cpp ∧
      (∀ p, sampleEnv.writeThrows p = none) ∧ sampleEnv.compile.error = none ∧
      sampleEnv.run.error = none ∧ (∀ p, sampleEnv.unlinkThrows p = none)) ∧
    (executeCode sampleEnv [] (.str "int main()\x7b\x7d") (.str "cpp") "" 2000).result =
      some { success := true, output := trim sampleEnv.run.stdout, error := "",
             executionTime := sampleEnv.endTime - sampleEnv.startTime, compilerError := false,
             runtimeError := false } :=
  ⟨⟨by decide, by decide, by decide, fun _ => rfl, rfl, rfl, fun _ => rfl⟩,
    (executeCode_normal_end sampleEnv [] "int main()\x7b\x7d" "cpp" "" 2000
      { files := [], trace := [.spawn "g++ --version" none] } .cpp (by decide) (by decide)
      (by decide) (fun h => by cases h) (fun _ => rfl) (fun _ => rfl) rfl).2
      (Or.inr (fun _ => rfl))⟩

/-! ## Temp files -/

/-- C17 (at the failing input): a Java submission with the public class `Foo` runs
successfully; its source is written to `Foo.java`, and after `executeCode` has returned that
file is still in the temp directory. -/
theorem executeCode_leaves_java_source_behind :
    (executeCode fooEnv [] (.str fooSource) (.str "java") "" 2000).result =
      some { success := true, output := "5", error := "", executionTime := 30,
             compilerError := false, runtimeError := false } ∧
    writes (executeCode fooEnv [] (.str fooSource) (.str "java") "" 2000).world.trace =
      ["/srv/temp/Foo.java"] ∧
    (executeCode fooEnv [] (.str fooSource) (.str "java") "" 2000).world.files =
      ["/srv/temp/Foo.java"] := by
  decide

/-- C18 (at the failing input): two Java runs with the distinct identifiers `u1` and `u2`
both write their source to `Main.java` and both run the class `Main`. -/
theorem executeCode_java_runs_share_paths :
    (mainEnv "u1").sessionId ≠ (mainEnv "u2").sessionId ∧
    writes (executeCode (mainEnv "u1") [] (.str "int x = 1;") (.str "java") "" 2000).world.trace =
      ["/srv/temp/Main.java"] ∧
    writes (executeCode (mainEnv "u2") [] (.str "int y = 2;") (.str "java") "" 2000).world.trace =
      ["/srv/temp/Main.java"] ∧
    spawns (executeCode (mainEnv "u1") [] (.str "int x = 1;") (.str "java") "" 2000).world.trace =
      [("javac -version", none), ("javac -version", none),
       ("javac \"/srv/temp/Main.java\"", none), ("java Main", some 5000)] ∧
    spawns (executeCode (mainEnv "u2") [] (.str "int y = 2;") (.str "java") "" 2000).world.trace =
      [("javac -version", none), ("javac -version", none),
       ("javac \"/srv/temp/Main.java\"", none), ("java Main", some 5000)] := by
  decide

theorem unlinkAll_files (env : Env) (patterns : List String) :
    ∀ w : World,
      (∀ p ∈ (unlinkAll env patterns w).1.files, p ∈ w.files) ∧
      (∀ p ∈ w.files, p ∉ patterns.map (pathJoin env.tempDir) →
        p ∈ (unlinkAll env patterns w).1.files) := by
  induction patterns with
  | nil => intro w; exact ⟨fun _ h => h, fun _ h _ => h⟩
  | cons pattern rest ih =>
    intro w
    simp only [unlinkAll]
    split
    · split
      · exact ⟨fun _ h => h, fun _ h _ => h⟩
      · obtain ⟨h1, h2⟩ := ih (w.unlink (pathJoin env.tempDir pattern))
        refine ⟨?_, ?_⟩
        · intro p hp
          have := h1 p hp
          simp only [World.unlink, List.mem_filter] at this
          exact this.1
        · intro p hp hn
          simp only [List.map_cons, List.mem_cons, not_or] at hn
          apply h2 p
          · simp only [World.unlink, List.mem_filter]
            exact ⟨hp, by simpa using hn.1⟩
          · exact hn.2
    · obtain ⟨h1, h2⟩ := ih w
      refine ⟨h1, ?_⟩
      intro p hp hn
      simp only [List.map_cons, List.mem_cons, not_or] at hn
      exact h2 p hp hn.2

/-- C19 (counterexample): the cleanup of run `u1` removes `Main.java` and `Main.class`, whose
names do not contain `u1`, and leaves the file of run `u2`. -/
theorem cleanupTempFiles_removes_Main_files :
    (cleanupTempFiles sampleEnv
      { files := ["/srv/temp/Main.java", "/srv/temp/Main.class", "/srv/temp/u2.py"],
        trace := [] } "u1").files = ["/srv/temp/u2.py"] ∧
    includes "/srv/temp/Main.java" "u1" = false ∧
    includes "/srv/temp/Main.class" "u1" = false := by
  decide

/-- C19 (amended): `cleanupTempFiles` adds no file, and it leaves in place every file other
than the nine paths it looks for: the run identifier with the endings `.java`, `.class`,
`.py`, `.cpp`, `.c`, none and `.exe`, and the fixed names `Main.java` and `Main.class`. -/
theorem cleanupTempFiles_files (env : Env) (w : World) (sessionId : String) :
    (∀ p ∈ (cleanupTempFiles env w sessionId).files, p ∈ w.files) ∧
    (∀ p ∈ w.files,
      p ∉ [pathJoin env.tempDir (sessionId ++ ".java"), pathJoin env.tempDir (sessionId ++ ".class"),
           pathJoin env.tempDir (sessionId ++ ".py"), pathJoin env.tempDir (sessionId ++ ".cpp"),
           pathJoin env.tempDir (sessionId ++ ".c"), pathJoin env.tempDir sessionId,
           pathJoin env.tempDir (sessionId ++ ".exe"), pathJoin env.tempDir "Main.java",
           pathJoin env.tempDir "Main.class"] →
      p ∈ (cleanupTempFiles env w sessionId).files) := by
  have h := unlinkAll_files env (cleanupPatterns sessionId) w
  have hf : (cleanupTempFiles env w sessionId).files =
      (unlinkAll env (cleanupPatterns sessionId) w).1.files := by
    unfold cleanupTempFiles
    split <;> rename_i heq <;> simp [heq, World.emit]
  rw [hf]
  exact ⟨h.1, fun p hp hn => h.2 p hp (by simpa [cleanupPatterns] using hn)⟩

/-! ## The Java source repairs -/

theorem whitespace_not_word (c : Char) (h : isJSWhitespace c = true) : isWordChar c = false := by
  simp only [isJSWhitespace, isWordChar, Bool.or_eq_true, beq_iff_eq, Bool.and_eq_true,
    decide_eq_true_eq] at h
  simp only [isWordChar, Bool.or_eq_false_iff, Bool.and_eq_false_iff, decide_eq_false_iff_not,
    beq_eq_false_iff_ne]
  omega

theorem whitespace_ne_p (c : Char) (h : isJSWhitespace c = true) : c ≠ 'p' := by
  rintro rfl
  revert h
  decide

theorem stripLit_append (p r : List Char) : stripLit p (p ++ r) = some r := by
  induction p with
  | nil => cases r <;> rfl
  | cons q ps ih => simp [stripLit, ih]

theorem stripLit_eq_some (p s r : List Char) (h : stripLit p s = some r) : s = p ++ r := by
  induction p generalizing s with
  | nil => cases s <;> simp_all [stripLit]
  | cons q ps ih =>
    cases s with
    | nil => simp [stripLit] at h
    | cons c cs =>
      simp only [stripLit] at h
      split at h
      · rename_i hq
        subst hq
        simp [ih cs h]
      · cases h

theorem skipSpaces1_eq_some (s r : List Char) (h : skipSpaces1 s = some r) :
    ∃ W, W ≠ [] ∧ (∀ c ∈ W, isJSWhitespace c = true) ∧ s = W ++ r := by
  cases s with
  | nil => simp [skipSpaces1] at h
  | cons c cs =>
    simp only [skipSpaces1] at h
    split at h
    · rename_i hc
      cases h
      refine ⟨c :: cs.takeWhile isJSWhitespace, by simp, ?_, by simp⟩
      intro d hd
      rcases List.mem_cons.mp hd with rfl | hd
      · exact hc
      · exact (List.mem_takeWhile_imp hd)
    · cases h

theorem dropWhile_ws_append (W : List Char) (c : Char) (r : List Char)
    (hW : ∀ d ∈ W, isJSWhitespace d = true) (hc : isJSWhitespace c = false) :
    (W ++ c :: r).dropWhile isJSWhitespace = c :: r := by
  induction W with
  | nil => simp [List.dropWhile, hc]
  | cons d ds ih =>
    have hd := hW d (by simp)
    simp only [List.cons_append, List.dropWhile_cons, hd, if_true]
    exact ih (fun e he => hW e (by simp [he]))

theorem skipSpaces1_ws_append (W : List Char) (c : Char) (r : List Char) (hne : W ≠ [])
    (hW : ∀ d ∈ W, isJSWhitespace d = true) (hc : isJSWhitespace c = false) :
    skipSpaces1 (W ++ c :: r) = some (c :: r) := by
  cases W with
  | nil => exact absurd rfl hne
  | cons d ds =>
    have hd := hW d (by simp)
    simp only [List.cons_append, skipSpaces1, hd, if_true]
    rw [dropWhile_ws_append ds c r (fun e he => hW e (by simp [he])) hc]

theorem matchPublicClassAt_span (x a : List Char) (hx : IsSpan x) :
    matchPublicClassAt (x ++ a) = none := by
  obtain ⟨W, tail, rfl, hne, hW, -⟩ := hx
  have h1 : stripLit "public".data ("public".data ++ W ++ 's' :: tail ++ a) =
      some (W ++ 's' :: (tail ++ a)) := by
    rw [show "public".data ++ W ++ 's' :: tail ++ a = "public".data ++ (W ++ 's' :: (tail ++ a))
      by simp]
    exact stripLit_append _ _
  have h2 := skipSpaces1_ws_append W 's' (tail ++ a) hne hW (by decide)
  have h3 : stripLit "class".data ('s' :: (tail ++ a)) = none := by
    simp [stripLit]
  simp only [matchPublicClassAt, h1, h2, h3]

theorem matchPublicClassAt_ne_p (c : Char) (t : List Char) (hc : c ≠ 'p') :
    matchPublicClassAt (c :: t) = none := by
  have : stripLit "public".data (c :: t) = none := by
    show stripLit ('p' :: "ublic".data) (c :: t) = none
    simp [stripLit, Ne.symm hc]
  simp only [matchPublicClassAt, this]

theorem findPublicClass_append_of_no_p (l t : List Char) (hl : ∀ c ∈ l, c ≠ 'p') :
    findPublicClass (l ++ t) = findPublicClass t := by
  induction l with
  | nil => rfl
  | cons c cs ih =>
    show findPublicClass (c :: (cs ++ t)) = _
    rw [findPublicClass, matchPublicClassAt_ne_p c (cs ++ t) (hl c (by simp))]
    exact ih (fun d hd => hl d (by simp [hd]))

theorem findPublicClass_span (x a : List Char) (hx : IsSpan x) :
    findPublicClass (x ++ a) = findPublicClass a := by
  have hm := matchPublicClassAt_span x a hx
  obtain ⟨W, tail, rfl, hne, hW, ht⟩ := hx
  have hsplit : "public".data ++ W ++ 's' :: tail ++ a =
      'p' :: (("ublic".data ++ W ++ 's' :: tail) ++ a) := rfl
  rw [hsplit] at hm ⊢
  rw [findPublicClass, hm]
  apply findPublicClass_append_of_no_p
  intro c hc
  simp only [List.mem_append, List.mem_cons] at hc
  rcases hc with (hc | hc) | hc | hc
  · rcases hc with rfl | rfl | rfl | rfl | rfl | hc <;> first | decide | simp at hc
  · exact whitespace_ne_p c (hW c hc)
  · subst hc
    decide
  · exact ht c hc


theorem isSpan_head {x : List Char} (hx : IsSpan x) : ∃ rest, x = 'p' :: rest := by
  obtain ⟨W, tail, rfl, -⟩ := hx
  exact ⟨_, rfl⟩

theorem isSpan_takeWhile_word {x : List Char} (hx : IsSpan x) (a : List Char) :
    (x ++ a).takeWhile isWordChar = "public".data := by
  obtain ⟨W, tail, rfl, hne, hW, -⟩ := hx
  cases W with
  | nil => exact absurd rfl hne
  | cons d ds =>
    have hd := whitespace_not_word d (hW d (by simp))
    show List.takeWhile isWordChar
      ('p' :: 'u' :: 'b' :: 'l' :: 'i' :: 'c' :: d :: (ds ++ 's' :: tail ++ a)) = _
    have h1 : isWordChar 'p' = true := by decide
    have h2 : isWordChar 'u' = true := by decide
    have h3 : isWordChar 'b' = true := by decide
    have h4 : isWordChar 'l' = true := by decide
    have h5 : isWordChar 'i' = true := by decide
    have h6 : isWordChar 'c' = true := by decide
    simp only [List.takeWhile_cons, hd, h1, h2, h3, h4, h5, h6]
    rfl

theorem related_dropWhile_ws {a b : List Char} (h : Related a b) :
    Related (a.dropWhile isJSWhitespace) (b.dropWhile isJSWhitespace) := by
  induction h with
  | nil => exact .nil
  | cons c h ih =>
    by_cases hc : isJSWhitespace c = true
    · simpa [List.dropWhile_cons, hc] using ih
    · simp only [List.dropWhile_cons, hc]
      exact .cons c h
  | span hx hy h _ =>
    obtain ⟨rx, hrx⟩ := isSpan_head hx
    obtain ⟨ry, hry⟩ := isSpan_head hy
    have hp : isJSWhitespace 'p' = false := by decide
    have h1 := Related.span hx hy h
    rw [hrx, hry] at h1 ⊢
    simpa [List.dropWhile_cons, hp] using h1

theorem related_takeWhile_word {a b : List Char} (h : Related a b) :
    a.takeWhile isWordChar = b.takeWhile isWordChar := by
  induction h with
  | nil => rfl
  | cons c h ih => simp [List.takeWhile_cons, ih]
  | span hx hy h _ => rw [isSpan_takeWhile_word hx, isSpan_takeWhile_word hy]

theorem related_stripLit (p : List Char) (hp : ∀ c ∈ p, c ≠ 'p') :
    ∀ {a b : List Char}, Related a b →
      (stripLit p a = none ∧ stripLit p b = none) ∨
      ∃ a1 b1, stripLit p a = some a1 ∧ stripLit p b = some b1 ∧ Related a1 b1 := by
  induction p with
  | nil =>
    intro a b h
    exact Or.inr ⟨a, b, by simp [CodeExecutor.stripLit], by simp [CodeExecutor.stripLit], h⟩
  | cons q ps ih =>
    intro a b h
    cases h with
    | nil => exact Or.inl ⟨rfl, rfl⟩
    | cons c h1 =>
      by_cases hq : q = c
      · subst hq
        simpa [CodeExecutor.stripLit] using ih (fun d hd => hp d (by simp [hd])) h1
      · exact Or.inl ⟨by simp [CodeExecutor.stripLit, hq], by simp [CodeExecutor.stripLit, hq]⟩
    | span hx hy h1 =>
      obtain ⟨rx, rfl⟩ := isSpan_head hx
      obtain ⟨ry, rfl⟩ := isSpan_head hy
      have hq : q ≠ 'p' := hp q (by simp)
      exact Or.inl ⟨by simp [CodeExecutor.stripLit, hq], by simp [CodeExecutor.stripLit, hq]⟩

theorem related_skipSpaces1 {a b : List Char} (h : Related a b) :
    (skipSpaces1 a = none ∧ skipSpaces1 b = none) ∨
    ∃ a1 b1, skipSpaces1 a = some a1 ∧ skipSpaces1 b = some b1 ∧ Related a1 b1 := by
  cases h with
  | nil => exact Or.inl ⟨rfl, rfl⟩
  | cons c h1 =>
    by_cases hc : isJSWhitespace c = true
    · exact Or.inr ⟨_, _, by simp [CodeExecutor.skipSpaces1, hc],
        by simp [CodeExecutor.skipSpaces1, hc], related_dropWhile_ws h1⟩
    · exact Or.inl ⟨by simp [CodeExecutor.skipSpaces1, hc], by simp [CodeExecutor.skipSpaces1, hc]⟩
  | span hx hy h1 =>
    obtain ⟨rx, rfl⟩ := isSpan_head hx
    obtain ⟨ry, rfl⟩ := isSpan_head hy
    have hp : isJSWhitespace 'p' = false := by decide
    exact Or.inl ⟨by simp [CodeExecutor.skipSpaces1, hp], by simp [CodeExecutor.skipSpaces1, hp]⟩

theorem related_matchPublicClassAt {a b : List Char} (h : Related a b) :
    matchPublicClassAt a = matchPublicClassAt b := by
  cases h with
  | nil => rfl
  | span hx hy h1 => rw [matchPublicClassAt_span _ _ hx, matchPublicClassAt_span _ _ hy]
  | cons c h1 =>
    rename_i a1 b1
    by_cases hc : c = 'p'
    · subst hc
      have e1 : ∀ t, CodeExecutor.stripLit "public".data ('p' :: t) =
          CodeExecutor.stripLit "ublic".data t := by
        intro t
        show CodeExecutor.stripLit ('p' :: "ublic".data) ('p' :: t) = _
        simp [CodeExecutor.stripLit]
      simp only [CodeExecutor.matchPublicClassAt, e1]
      rcases related_stripLit "ublic".data (by decide) h1 with ⟨h2, h3⟩ | ⟨a2, b2, h2, h3, r2⟩
      · simp only [h2, h3]
      · simp only [h2, h3]
        rcases related_skipSpaces1 r2 with ⟨h4, h5⟩ | ⟨a3, b3, h4, h5, r3⟩
        · simp only [h4, h5]
        · simp only [h4, h5]
          rcases related_stripLit "class".data (by decide) r3 with
            ⟨h6, h7⟩ | ⟨a4, b4, h6, h7, r4⟩
          · simp only [h6, h7]
          · simp only [h6, h7]
            rcases related_skipSpaces1 r4 with ⟨h8, h9⟩ | ⟨a5, b5, h8, h9, r5⟩
            · simp only [h8, h9]
            · simp only [h8, h9, related_takeWhile_word r5]
    · rw [matchPublicClassAt_ne_p c _ hc, matchPublicClassAt_ne_p c _ hc]

theorem related_findPublicClass {a b : List Char} (h : Related a b) :
    findPublicClass a = findPublicClass b := by
  induction h with
  | nil => rfl
  | cons c h ih =>
    rw [CodeExecutor.findPublicClass, CodeExecutor.findPublicClass,
      related_matchPublicClassAt (Related.cons c h), ih]
  | span hx hy h ih => rw [findPublicClass_span _ _ hx, findPublicClass_span _ _ hy, ih]


theorem replaceMainAux_skip (mid rest : List Char) :
    replaceMainAux (mid ++ rest) mid.length = replaceMainAux rest 0 := by
  induction mid with
  | nil => rfl
  | cons c cs ih => simpa [replaceMainAux] using ih

theorem isSpan_replacement : IsSpan "public static void main(".data :=
  ⟨[' '], "tatic void main(".data, rfl, by simp, by decide, by decide⟩

theorem matchMainAt_span (s rest : List Char) (h : matchMainAt s = some rest) :
    ∃ mid, s = mid ++ rest ∧ IsSpan mid := by
  simp only [matchMainAt] at h
  cases h1 : stripLit "public".data s with
  | none => simp [h1] at h
  | some r1 =>
    simp only [h1] at h
    cases h2 : skipSpaces1 r1 with
    | none => simp [h2] at h
    | some r2 =>
      simp only [h2] at h
      cases h3 : stripLit "static".data r2 with
      | none => simp [h3] at h
      | some r3 =>
        simp only [h3] at h
        cases h4 : skipSpaces1 r3 with
        | none => simp [h4] at h
        | some r4 =>
          simp only [h4] at h
          cases h5 : stripLit "void".data r4 with
          | none => simp [h5] at h
          | some r5 =>
            simp only [h5] at h
            cases h6 : skipSpaces1 r5 with
            | none => simp [h6] at h
            | some r6 =>
              simp only [h6] at h
              cases h7 : stripLit "Main".data r6 with
              | none => simp [h7] at h
              | some r7 =>
                simp only [h7] at h
                have e1 := stripLit_eq_some _ _ _ h1
                obtain ⟨W1, hne1, hW1, e2⟩ := skipSpaces1_eq_some _ _ h2
                have e3 := stripLit_eq_some _ _ _ h3
                obtain ⟨W2, -, hW2, e4⟩ := skipSpaces1_eq_some _ _ h4
                have e5 := stripLit_eq_some _ _ _ h5
                obtain ⟨W3, -, hW3, e6⟩ := skipSpaces1_eq_some _ _ h6
                have e7 := stripLit_eq_some _ _ _ h7
                have e8 := stripLit_eq_some _ _ _ h
                have e9 : r7 = r7.takeWhile isJSWhitespace ++ ("(".data ++ rest) := by
                  rw [← e8]
                  exact (List.takeWhile_append_dropWhile _ _).symm
                refine ⟨"public".data ++ W1 ++ 's' :: ("tatic".data ++ W2 ++ "void".data ++ W3 ++
                  "Main".data ++ r7.takeWhile isJSWhitespace ++ "(".data), ?_,
                  ⟨W1, _, rfl, hne1, hW1, ?_⟩⟩
                · rw [e1, e2, e3, e4, e5, e6, e7]
                  conv_lhs => rw [e9]
                  simp only [List.append_assoc, List.cons_append]
                · intro c hc
                  simp only [List.mem_append] at hc
                  rcases hc with (((((hc | hc) | hc) | hc) | hc) | hc) | hc
                  · revert hc; revert c; decide
                  · exact whitespace_ne_p c (hW2 c hc)
                  · revert hc; revert c; decide
                  · exact whitespace_ne_p c (hW3 c hc)
                  · revert hc; revert c; decide
                  · exact whitespace_ne_p c (List.mem_takeWhile_imp hc)
                  · revert hc; revert c; decide

theorem replaceMainAux_related : ∀ (n : Nat) (s : List Char), s.length ≤ n →
    Related s (replaceMainAux s 0) := by
  intro n
  induction n with
  | zero =>
    intro s hs
    have : s = [] := List.eq_nil_of_length_eq_zero (Nat.le_zero.mp hs)
    subst this
    exact .nil
  | succ n ih =>
    intro s hs
    cases s with
    | nil => exact .nil
    | cons c cs =>
      have hcs : cs.length ≤ n := by simpa using hs
      cases hm : matchMainAt (c :: cs) with
      | none =>
        have : replaceMainAux (c :: cs) 0 = c :: replaceMainAux cs 0 := by
          simp only [replaceMainAux, hm]
        rw [this]
        exact .cons c (ih cs hcs)
      | some rest =>
        obtain ⟨mid, hmid, hspan⟩ := matchMainAt_span _ _ hm
        obtain ⟨mid1, rfl⟩ := isSpan_head hspan
        have hcs2 : cs = mid1 ++ rest := by
          have := hmid
          simp only [List.cons_append, List.cons.injEq] at this
          exact this.2
        have hlen : (c :: cs).length - rest.length - 1 = mid1.length := by
          rw [hcs2]
          simp only [List.length_cons, List.length_append]
          omega
        have : replaceMainAux (c :: cs) 0 =
            "public static void main(".data ++ replaceMainAux rest 0 := by
          simp only [replaceMainAux, hm, hlen]
          rw [hcs2, replaceMainAux_skip]
        rw [this, hmid]
        refine .span hspan isSpan_replacement (ih rest ?_)
        rw [hcs2] at hcs
        simp only [List.length_append] at hcs
        omega

theorem findPublicClass_fixMainSignature (code : String) :
    findPublicClass (fixMainSignature code).data = findPublicClass code.data :=
  (related_findPublicClass (replaceMainAux_related _ code.data (Nat.le_refl _))).symm


theorem findPublicClass_addScannerImport (code : String) :
    findPublicClass (addScannerImport code).data = findPublicClass code.data := by
  unfold addScannerImport
  split
  · have hsplit : ("import java.util.Scanner;\n" ++ code).data =
        "im".data ++ ('p' :: ("ort java.util.Scanner;\n".data ++ code.data)) := by
      rw [String.data_append]
      rfl
    rw [hsplit, findPublicClass_append_of_no_p _ _ (by decide), findPublicClass]
    have hm : matchPublicClassAt ('p' :: ("ort java.util.Scanner;\n".data ++ code.data)) = none := by
      have : stripLit "public".data ('p' :: ("ort java.util.Scanner;\n".data ++ code.data)) =
          none := by
        show stripLit ('p' :: 'u' :: "blic".data)
          ('p' :: 'o' :: ("rt java.util.Scanner;\n".data ++ code.data)) = none
        simp [stripLit]
      simp only [matchPublicClassAt, this]
    rw [hm]
    exact findPublicClass_append_of_no_p _ _ (by decide)
  · rfl

theorem findPublicClass_wrapper (code : String) :
    findPublicClass ("public class Main \x7b\n" ++ code ++ "\n\x7d").data = some "Main".data := by
  have hsplit : ("public class Main \x7b\n" ++ code ++ "\n\x7d").data =
      'p' :: ("ublic class Main \x7b\n".data ++ (code.data ++ "\n\x7d".data)) := by
    rw [String.data_append, String.data_append, List.append_assoc]
    rfl
  rw [hsplit, findPublicClass]
  have hm : matchPublicClassAt
      ('p' :: ("ublic class Main \x7b\n".data ++ (code.data ++ "\n\x7d".data))) =
      some "Main".data := rfl
  rw [hm]

theorem findPublicClass_wrapInMain (code : String) :
    findPublicClass (wrapInMain code).data = some (javaClassName code).data := by
  unfold wrapInMain javaClassName
  cases h : findPublicClass code.data with
  | none => exact findPublicClass_wrapper code
  | some name => simpa using h

theorem findPublicClass_normalizeJava (code : String) :
    findPublicClass (normalizeJava code).data = some (javaClassName code).data := by
  unfold normalizeJava
  rw [findPublicClass_addScannerImport, findPublicClass_fixMainSignature,
    findPublicClass_wrapInMain]

theorem wrapInMain_eq_wrapper_iff (code : String) :
    (javaClassName code = "Main" ∧ wrapInMain code = "public class Main \x7b\n" ++ code ++ "\n\x7d") ↔
      findPublicClass code.data = none := by
  constructor
  · rintro ⟨-, hw⟩
    cases h : findPublicClass code.data with
    | none => rfl
    | some name =>
      exfalso
      simp only [wrapInMain, h] at hw
      have := congrArg String.length hw
      simp only [String.length_append] at this
      have h1 : "public class Main \x7b\n".length = 20 := by decide
      have h2 : "\n\x7d".length = 2 := by decide
      omega
  · intro h
    simp [javaClassName, wrapInMain, h]

theorem executeJava_trace (env : Env) (w : World) (filePath input : String) :
    w.trace <+: (executeJava env w filePath input).world.trace := by
  unfold executeJava
  simp only []
  repeat' split
  all_goals simp [World.emit, World.create, World.unlink]

theorem executeJavaCode_trace (env : Env) (w : World) (code input sessionId : String)
    (timeLimit : Nat) (hjavac : env.javacCheck = true) (hwrite : ∀ p, env.writeThrows p = none) :
    (w.trace ++ [.spawn "javac -version" none,
        .writeFile (pathJoin env.tempDir (javaClassName code ++ ".java")) (normalizeJava code)])
      <+: (executeJavaCode env w code input sessionId timeLimit).world.trace := by
  have h := executeJava_trace env
    ((w.emit (.spawn "javac -version" none)).write
      (pathJoin env.tempDir (javaClassName code ++ ".java")) (normalizeJava code))
    (pathJoin env.tempDir (javaClassName code ++ ".java")) input
  have hw : ((w.emit (.spawn "javac -version" none)).write
      (pathJoin env.tempDir (javaClassName code ++ ".java")) (normalizeJava code)).trace =
      w.trace ++ [.spawn "javac -version" none,
        .writeFile (pathJoin env.tempDir (javaClassName code ++ ".java")) (normalizeJava code)] := by
    simp [World.write, World.emit, World.create]
  rw [hw] at h
  simp only [executeJavaCode, hjavac, Bool.not_true, Bool.false_eq_true, if_false,
    sanitizeFilePath_pathJoin, hwrite]
  split <;> exact h

/-- C20: the source that `executeJavaCode` writes contains a public class declaration; it is
written to the file named after the first such declaration of the written source; and the
name is `Main` with the submission wrapped in `public class Main` exactly when the submitted
source has no public class declaration. -/
theorem executeJavaCode_class_name (env : Env) (w : World) (code input sessionId : String)
    (timeLimit : Nat) (hjavac : env.javacCheck = true) (hwrite : ∀ p, env.writeThrows p = none) :
    findPublicClass (normalizeJava code).data = some (javaClassName code).data ∧
    (w.trace ++ [.spawn "javac -version" none,
        .writeFile (pathJoin env.tempDir (javaClassName code ++ ".java")) (normalizeJava code)])
      <+: (executeJavaCode env w code input sessionId timeLimit).world.trace ∧
    ((javaClassName code = "Main" ∧
        wrapInMain code = "public class Main \x7b\n" ++ code ++ "\n\x7d") ↔
      findPublicClass code.data = none) :=
  ⟨findPublicClass_normalizeJava code,
    executeJavaCode_trace env w code input sessionId timeLimit hjavac hwrite,
    wrapInMain_eq_wrapper_iff code⟩

/-- Witness of C20: the submission with the public class `Foo` on the sample host. -/
theorem executeJavaCode_class_name_witness :
    (fooEnv.javacCheck = true ∧ ∀ p, fooEnv.writeThrows p = none) ∧
    (findPublicClass (normalizeJava fooSource).data = some (javaClassName fooSource).data ∧
    (([] : List Event) ++ [.spawn "javac -version" none,
        .writeFile (pathJoin fooEnv.tempDir (javaClassName fooSource ++ ".java"))
          (normalizeJava fooSource)])
      <+: (executeJavaCode fooEnv { files := [], trace := [] } fooSource "" "u1" 2000).world.trace ∧
    ((javaClassName fooSource = "Main" ∧
        wrapInMain fooSource = "public class Main \x7b\n" ++ fooSource ++ "\n\x7d") ↔
      findPublicClass fooSource.data = none)) :=
  ⟨⟨rfl, fun _ => rfl⟩,
    executeJavaCode_class_name fooEnv { files := [], trace := [] } fooSource "" "u1" 2000 rfl
      (fun _ => rfl)⟩

/-- The repairs on a snippet without a class: it is wrapped in `Main`, the entry point is
renamed and the `Scanner` import is added. -/
theorem normalizeJava_example :
    normalizeJava "public static void Main (String[] a) \x7b Scanner s; \x7d" =
      "import java.util.Scanner;\npublic class Main \x7b\npublic static void main(String[] a) \x7b Scanner s; \x7d\n\x7d" ∧
    javaClassName "public static void Main (String[] a) \x7b Scanner s; \x7d" = "Main" ∧
    javaClassName fooSource = "Foo" := by
  decide

/-! ## The Scanner import -/

theorem includesChars_iff_occurs (s pat : List Char) :
    includesChars s pat = true ↔ pat <:+: s := by
  induction s with
  | nil =>
    cases pat with
    | nil => simp [includesChars]
    | cons p ps => simp [includesChars]
  | cons c cs ih =>
    simp only [includesChars, Bool.or_eq_true, List.isPrefixOf_iff_prefix, ih]
    constructor
    · rintro (h | h)
      · exact h.isInfix
      · exact h.trans (List.suffix_cons c cs).isInfix
    · intro h
      rcases List.infix_cons_iff.mp h with h | h
      · exact Or.inl h
      · exact Or.inr h

theorem includes_import_prepended (m : String) :
    includes ("import java.util.Scanner;\n" ++ m) "import java.util.Scanner" = true := by
  unfold includes
  rw [includesChars_iff_occurs, String.data_append]
  exact ⟨[], ";\n".data ++ m.data, by simp⟩

theorem addScannerImport_eq_prepended_iff (m : String) :
    addScannerImport m = "import java.util.Scanner;\n" ++ m ↔
      (includes m "Scanner" = true ∧ includes m "import java.util.Scanner" = false) := by
  constructor
  · intro h
    by_contra hc
    have hm : addScannerImport m = m := by
      unfold addScannerImport
      rw [if_neg]
      simpa using hc
    rw [hm] at h
    have := congrArg String.length h
    simp only [String.length_append] at this
    have h1 : "import java.util.Scanner;\n".length = 26 := by decide
    omega
  · rintro ⟨h1, h2⟩
    simp [addScannerImport, h1, h2]

/-! ## The availability probe -/

/-- C22: for a language whose lower-cased form is supported, `checkCompilerAvailability` runs
the one version query of that language and reports it available exactly when the query
succeeds, otherwise unavailable with the fixed message of that toolchain; for any other
language it reports `Unsupported language:` and the language, and runs nothing. -/
theorem checkCompilerAvailability_spec (env : Env) (w : World) (language : String) :
    (∀ r, selectRunner (toLowerCase language) = some r →
      checkCompilerAvailability env w language =
        (if env.probe = true then .available else .unavailable (remediation r),
          w.emit (.spawn (versionQuery r) none)) ∧
      spawns (checkCompilerAvailability env w language).2.trace =
        spawns w.trace ++ [(versionQuery r, none)]) ∧
    (selectRunner (toLowerCase language) = none →
      checkCompilerAvailability env w language =
        (.unavailable ("Unsupported language: " ++ language), w)) := by
  unfold checkCompilerAvailability selectRunner
  split
  all_goals
    refine ⟨fun r hr => ?_, fun hn => ?_⟩
    all_goals first
      | (cases hr
         refine ⟨?_, ?_⟩
         · simp only [runProbe, versionQuery, remediation]
           split <;> rfl
         · simp only [runProbe, versionQuery]
           split <;> simp [World.emit, spawns_append, spawns])
      | rfl
      | cases hn
      | cases hr

/-- C23 (at the failing input): for the language `c` the probe asks for `gcc` while the
wrapper builds with `g++`; for `cpp`, `java` and `python` the probed program is the one the
runner starts first. -/
theorem probe_and_runner_binaries :
    (spawns (executeCode sampleEnv [] (.str "int main()\x7b\x7d") (.str "c") "" 2000).world.trace).map
        (fun c => binaryOf c.1) = ["gcc", "g++", "\"/srv/temp/u1\""] ∧
    (spawns (executeCode sampleEnv [] (.str "int main()\x7b\x7d") (.str "cpp") "" 2000).world.trace).map
        (fun c => binaryOf c.1) = ["g++", "g++", "\"/srv/temp/u1\""] ∧
    (spawns (executeCode fooEnv [] (.str fooSource) (.str "java") "" 2000).world.trace).map
        (fun c => binaryOf c.1) = ["javac", "javac", "javac", "java"] ∧
    (spawns (executeCode sampleEnv [] (.str "print(5)") (.str "python") "" 2000).world.trace).map
        (fun c => binaryOf c.1) = ["python3", "python3"] := by
  decide

/-! ## `security.js` -/

/-- On paths that `path.normalize` and `path.resolve` leave unchanged, the whole function is
the prefix test. -/
theorem sanitizeFilePathAt_eq_sanitizeFilePath (cwd filePath allowedDir : String)
    (hn : posixNormalize filePath = filePath)
    (hr : posixResolve cwd [allowedDir, filePath] = filePath)
    (hd : posixResolve cwd [allowedDir] = allowedDir) :
    sanitizeFilePathAt cwd filePath allowedDir = sanitizeFilePath filePath allowedDir := by
  simp only [sanitizeFilePathAt, sanitizeFilePath, hn, hr, hd]

/-- C24 (at the failing input): with the allowed directory `/srv/temp`, the relative path
`../temp_evil/x.py` and the absolute path `/srv/temp_evil/x.py` are both returned as
`/srv/temp_evil/x.py`, which is not inside `/srv/temp`; a path in an unrelated directory is
refused, and a file name inside the directory is returned. -/
theorem sanitizeFilePath_accepts_sibling_directory :
    sanitizeFilePathAt "/srv/app" "../temp_evil/x.py" "/srv/temp" = some "/srv/temp_evil/x.py" ∧
    sanitizeFilePathAt "/srv/app" "/srv/temp_evil/x.py" "/srv/temp" =
      some "/srv/temp_evil/x.py" ∧
    sanitizeFilePath "/srv/temp_evil/x.py" "/srv/temp" = some "/srv/temp_evil/x.py" ∧
    isInsideDir "/srv/temp_evil/x.py" "/srv/temp" = false ∧
    sanitizeFilePathAt "/srv/app" "../other/x.py" "/srv/temp" = none ∧
    sanitizeFilePathAt "/srv/app" "/srv/temp/u1.py" "/srv/temp" = some "/srv/temp/u1.py" ∧
    isInsideDir "/srv/temp/u1.py" "/srv/temp" = true := by
  decide

/-- The three replacements of `sanitizeForLog` together keep exactly the code units that are
none of the removed ones. -/
theorem sanitizeForLog_eq_take_filter (input : List Nat) :
    sanitizeForLog input =
      (input.filter (fun u => decide (u ≠ 0x0D ∧ u ≠ 0x0A ∧ ¬ u ≤ 0x1F ∧
        ¬ (0x7F ≤ u ∧ u ≤ 0x9F) ∧ u ≠ 0x3C ∧ u ≠ 0x3E))).take 100 := by
  simp only [sanitizeForLog, List.filter_filter]
  congr 1
  apply List.filter_congr
  intro u _
  simp only [isControlUnit]
  by_cases h1 : u = 0x0D <;> by_cases h2 : u = 0x0A <;> by_cases h3 : u ≤ 0x1F <;>
    by_cases h4 : 0x7F ≤ u <;> by_cases h5 : u ≤ 0x9F <;> by_cases h6 : u = 0x3C <;>
    by_cases h7 : u = 0x3E <;> simp [h1, h2, h3, h4, h5, h6, h7]

/-- C25: for every JavaScript string, given by its UTF-16 code units (the characters its
`length` counts), the result of `sanitizeForLog` has length at most 100, contains no carriage
return, no line feed, no control unit of the two ranges, no `<` and no `>`; it is a subsequence
of the input in the order of the input, namely the first 100 (or all, when fewer) of the units
of the input that are none of the removed ones. -/
theorem sanitizeForLog_spec (input : List Nat) :
    (sanitizeForLog input).length ≤ 100 ∧
    (∀ u ∈ sanitizeForLog input,
      u ≠ 0x0D ∧ u ≠ 0x0A ∧ ¬ u ≤ 0x1F ∧ ¬ (0x7F ≤ u ∧ u ≤ 0x9F) ∧ u ≠ 0x3C ∧ u ≠ 0x3E) ∧
    (sanitizeForLog input).Sublist input ∧
    sanitizeForLog input =
      (input.filter (fun u => decide (u ≠ 0x0D ∧ u ≠ 0x0A ∧ ¬ u ≤ 0x1F ∧
        ¬ (0x7F ≤ u ∧ u ≤ 0x9F) ∧ u ≠ 0x3C ∧ u ≠ 0x3E))).take 100 := by
  refine ⟨?_, ?_, ?_, sanitizeForLog_eq_take_filter input⟩
  · simp only [sanitizeForLog]
    exact List.length_take_le _ _
  · intro u hu
    simp only [sanitizeForLog] at hu
    have hu1 := List.mem_of_mem_take hu
    simp only [List.mem_filter, Bool.not_eq_true', Bool.or_eq_false_iff, beq_eq_false_iff_ne,
      isControlUnit, Bool.and_eq_false_iff, decide_eq_false_iff_not] at hu1
    obtain ⟨⟨⟨-, h1, h2⟩, h3, h4⟩, h5, h6⟩ := hu1
    exact ⟨h1, h2, h3, by omega, h5, h6⟩
  · simp only [sanitizeForLog]
    exact (List.take_sublist _ _).trans
      ((List.filter_sublist _).trans ((List.filter_sublist _).trans (List.filter_sublist _)))

/-- The cut counts code units, not code points: of the letter `a` followed by 50 characters
outside the basic plane, which are 101 code units, the first 100 units are kept, so the result
ends in the high surrogate of the last pair; a short text in the basic plane loses only the
removed characters. -/
theorem sanitizeForLog_examples :
    (utf16 (String.mk ('a' :: List.replicate 50 (Char.ofNat 0x1F600)))).length = 101 ∧
    sanitizeForLog (utf16 (String.mk ('a' :: List.replicate 50 (Char.ofNat 0x1F600)))) =
      utf16 (String.mk ('a' :: List.replicate 49 (Char.ofNat 0x1F600))) ++ [0xD83D] ∧
    sanitizeForLog (utf16 "a<b>\r\nc") = utf16 "abc" := by
  decide

/-! ## The input sanitiser -/

theorem removeJavascriptAux_sublist (s : List Char) :
    ∀ k, (removeJavascriptAux s k).Sublist s := by
  induction s with
  | nil => intro k; cases k <;> exact List.Sublist.slnil
  | cons c cs ih =>
    intro k
    cases k with
    | succ k => exact (ih k).cons c
    | zero =>
      simp only [removeJavascriptAux]
      split
      · exact (ih _).cons c
      · exact (ih 0).cons₂ c

theorem removeHandlersAux_sublist (s : List Char) :
    ∀ k, (removeHandlersAux s k).Sublist s := by
  induction s with
  | nil => intro k; cases k <;> exact List.Sublist.slnil
  | cons c cs ih =>
    intro k
    cases k with
    | succ k => exact (ih k).cons c
    | zero =>
      simp only [removeHandlersAux]
      split
      · exact (ih _).cons c
      · exact (ih 0).cons₂ c

theorem trim_sublist (s : String) : (trim s).data.Sublist s.data := by
  simp only [trim, trimEndChars, trimStartChars]
  have h1 : ((s.data.dropWhile isJSWhitespace).reverse.dropWhile isJSWhitespace).reverse.Sublist
      (s.data.dropWhile isJSWhitespace) := by
    have := (List.dropWhile_sublist isJSWhitespace :
      ((s.data.dropWhile isJSWhitespace).reverse.dropWhile isJSWhitespace).Sublist _)
    simpa using this.reverse
  exact h1.trans (List.dropWhile_sublist _)

/-- What the sanitiser does guarantee: the result has no `<` and no `>`. -/
theorem sanitizeInput_no_angle_brackets (input : String) :
    ∀ c ∈ (sanitizeInput input).data, c ≠ '<' ∧ c ≠ '>' := by
  intro c hc
  have h1 := (trim_sublist _).subset hc
  have h2 := (removeHandlersAux_sublist _ 0).subset h1
  have h3 := (removeJavascriptAux_sublist _ 0).subset h2
  simpa [removeAngles] using (List.mem_filter.mp h3).2

/-- C26 (at the failing inputs): one pass of each replacement leaves what it was meant to
remove: `javajavascript:script:` and `javaonx=script:` come out as `javascript:`, and
`oonx=nclick=` comes out as `onclick=`; the backend chain does the same. -/
theorem sanitizeInput_leaves_javascript_and_handlers :
    sanitizeInput "javajavascript:script:alert(1)" = "javascript:alert(1)" ∧
    sanitizeInput "javaonx=script:alert(1)" = "javascript:alert(1)" ∧
    includes (toLowerCase (sanitizeInput "javajavascript:script:alert(1)")) "javascript:" = true ∧
    sanitizeInput "oonx=nclick=alert(1)" = "onclick=alert(1)" ∧
    hasHandler (sanitizeInput "oonx=nclick=alert(1)").data = true ∧
    sanitizeValue "javajavascript:script:alert(1)" = "javascript:alert(1)" ∧
    sanitizeValue "oonx=nclick=alert(1)" = "onclick=alert(1)" ∧
    sanitizeInput " <b onclick=x>JavaScript:y</b> " = "b xy/b" := by
  decide

/-! ## Test sessions -/

/-- For the two statuses its guard names, `completeTest` refuses the second submission and
leaves the row as it is. -/
theorem completeTest_rejects_completed (sessionId : String) (session : TestSession)
    (sections : List Section) (sectionScores : List SectionScoreInput) (now : Nat)
    (hid : sessionId ≠ "")
    (h : session.status = .completed ∨ session.status = .submitted) :
    completeTest (some sessionId) (some session) sections sectionScores now =
      ⟨⟨400, false, some "Test has already been submitted"⟩, some session⟩ := by
  simp [completeTest, h, hid]

/-- An absent or empty session identifier is refused before the session is read. -/
theorem completeTest_requires_sessionId (found : Option TestSession) (sections : List Section)
    (sectionScores : List SectionScoreInput) (now : Nat) :
    completeTest none found sections sectionScores now =
      ⟨⟨400, false, some "Session ID is required"⟩, found⟩ ∧
    completeTest (some "") found sections sectionScores now =
      ⟨⟨400, false, some "Session ID is required"⟩, found⟩ := by
  simp [completeTest]

/-- C27 (at the failing input): a session that `autoSubmitTest` has finalised with 40 marks
at time 500 is accepted by a later `completeTest`, which sets the status to `completed`, the
score to 0 and the completion time to 900. -/
theorem completeTest_accepts_auto_submitted :
    autoSubmitTest (some runningSession) storedScores 500 =
      ((true, none),
        some { runningSession with status := .auto_submitted, totalScore := 40,
                                   completedAt := some 500 }) ∧
    completeTest (some "7") (autoSubmitTest (some runningSession) storedScores 500).2
        [{ id := 1, maxMarks := 50 }, { id := 2, maxMarks := 50 }] [] 900 =
      ⟨⟨200, true, none⟩,
        some { runningSession with status := .completed, totalScore := 0,
                                   completedAt := some 900 }⟩ := by
  decide

/-- For a licensed user every existing session, and for any other user a session with one of
the two statuses the guard names, `startTestSession` is refused with status 403 and the row
is left as it is. -/
theorem startTestSession_rejects (test : TestInfo) (isLicensedUser : Bool)
    (session : TestSession) (now : Nat)
    (h : isLicensedUser = true ∨ session.status = .completed ∨ session.status = .submitted) :
    (startTestSession true (some test) isLicensedUser (some session) now).response.code = 403 ∧
    (startTestSession true (some test) isLicensedUser (some session) now).session =
      some session := by
  unfold startTestSession
  simp only [Bool.not_true, Bool.false_eq_true, if_false]
  split
  · exact ⟨rfl, rfl⟩
  · split
    · exact ⟨rfl, rfl⟩
    · cases isLicensedUser
      · have h2 : session.status = .completed ∨ session.status = .submitted := by
          simpa using h
        simp [h2]
      · exact ⟨rfl, rfl⟩

/-- C28 (at the failing input): for a user who is not licensed, a session that was
auto-submitted is resumed: `startTestSession` answers with success and sets the status back to
`in_progress`. -/
theorem startTestSession_reopens_auto_submitted :
    startTestSession true (some { sinceStartMs := some 60000, maxScore := 100 }) false
        (autoSubmitTest (some runningSession) storedScores 500).2 900 =
      ⟨⟨200, true, none⟩,
        some { runningSession with status := .in_progress, totalScore := 40,
                                   completedAt := some 500 }⟩ ∧
    (startTestSession true (some { sinceStartMs := some 60000, maxScore := 100 }) true
        (autoSubmitTest (some runningSession) storedScores 500).2 900).response.code = 403 := by
  decide

/-! ## The score and status of a submission -/

theorem roundToDouble_le (p q c : Nat) (hq : 0 < q) (h : p ≤ c * q) :
    (roundToDouble p q).1 ≤ c * 2 ^ (roundToDouble p q).2 := by
  unfold roundToDouble
  split
  · simp
  · simp only []
    generalize findShift p q 1100 0 = k
    have hdm := Nat.div_add_mod (p * 2 ^ k) q
    have hle : p * 2 ^ k ≤ q * (c * 2 ^ k) := by
      calc p * 2 ^ k ≤ c * q * 2 ^ k := Nat.mul_le_mul_right _ h
        _ = q * (c * 2 ^ k) := by ring
    have hn : p * 2 ^ k / q ≤ c * 2 ^ k := Nat.div_le_of_le_mul hle
    have hstrict : ¬ 2 * (p * 2 ^ k % q) < q → p * 2 ^ k / q < c * 2 ^ k := by
      intro hr
      by_contra hcon
      have heq : p * 2 ^ k / q = c * 2 ^ k := Nat.le_antisymm hn (Nat.not_lt.mp hcon)
      rw [heq] at hdm
      omega
    split
    · exact hn
    · rename_i hr
      have := hstrict hr
      split
      · omega
      · split <;> omega

theorem roundToDouble_of_multiple (q c : Nat) (hq : 0 < q) :
    (roundToDouble (c * q) q).1 = c * 2 ^ (roundToDouble (c * q) q).2 := by
  unfold roundToDouble
  split
  · rename_i h0
    rcases Nat.mul_eq_zero.mp h0 with h0 | h0
    · simp [h0]
    · omega
  · simp only []
    generalize findShift (c * q) q 1100 0 = k
    have h1 : c * q * 2 ^ k = c * 2 ^ k * q := by ring
    have hn : c * q * 2 ^ k / q = c * 2 ^ k := by
      rw [h1]
      exact Nat.mul_div_cancel _ hq
    have hr : c * q * 2 ^ k % q = 0 := by
      rw [h1]
      exact Nat.mul_mod_left _ _
    rw [hn, hr]
    simp [hq]

theorem mathRound_le (d : Nat × Nat) (m : Nat) (h : d.1 ≤ m * 2 ^ d.2) : mathRound d ≤ m := by
  unfold mathRound
  have hpos : 0 < 2 ^ d.2 := Nat.two_pow_pos _
  apply Nat.le_of_lt_succ
  rw [Nat.div_lt_iff_lt_mul (Nat.two_pow_pos _)]
  have h2 : 2 ^ (d.2 + 1) = 2 * 2 ^ d.2 := by rw [pow_succ]; ring
  rw [h2]
  nlinarith

theorem mathRound_of_multiple (d : Nat × Nat) (m : Nat) (h : d.1 = m * 2 ^ d.2) :
    mathRound d = m := by
  unfold mathRound
  have hpos : 0 < 2 ^ d.2 := Nat.two_pow_pos _
  have h2 : 2 ^ (d.2 + 1) = 2 * 2 ^ d.2 := by rw [pow_succ]; ring
  rw [h, h2]
  have h3 : 2 * (m * 2 ^ d.2) + 2 ^ d.2 = (2 * m + 1) * 2 ^ d.2 := by ring
  rw [h3, Nat.mul_div_mul_right _ _ hpos]
  omega

theorem proportionalScore_le (K N M : Nat) (hN : 0 < N) (hK : K ≤ N) :
    proportionalScore K N M ≤ M := by
  unfold proportionalScore
  simp only []
  have hx := roundToDouble_le K N 1 hN (by simpa using hK)
  apply mathRound_le
  apply roundToDouble_le _ _ _ (Nat.two_pow_pos _)
  calc (roundToDouble K N).1 * M ≤ 1 * 2 ^ (roundToDouble K N).2 * M :=
        Nat.mul_le_mul_right _ hx
    _ = M * 2 ^ (roundToDouble K N).2 := by ring

theorem proportionalScore_all (N M : Nat) (hN : 0 < N) : proportionalScore N N M = M := by
  unfold proportionalScore
  simp only []
  have hx := roundToDouble_of_multiple N 1 hN
  simp only [Nat.one_mul] at hx
  apply mathRound_of_multiple
  rw [hx]
  have := roundToDouble_of_multiple (2 ^ (roundToDouble N N).2) M (Nat.two_pow_pos _)
  rw [Nat.mul_comm (2 ^ (roundToDouble N N).2) M]
  exact this

/-- C29 (counterexample): in the example evaluation one of two test cases passes, and for a
question worth 1 mark the score is the full mark; so is the score 10 for 99 of 100 test
cases on a question worth 10 marks. -/
theorem finalScore_full_marks_on_partial_pass :
    (evaluateTestCasesWith sampleExec (.str "print(int(input())+1)") (.str "python3")
      sampleCases 2000).map (fun p => (p.1.totalScore, p.1.totalTests, finalScore p.1 1)) =
      some (1, 2, 1) ∧
    proportionalScore 99 100 10 = 10 := by
  decide

/-- C29 (amended): for an evaluation of at least one test case, the score of `submitCode`
lies between 0 and the marks of the question, and it is the full marks when every test case
passed. -/
theorem finalScore_bounds (evaluation : EvaluationSummary) (marks : Nat)
    (hN : 1 ≤ evaluation.totalTests) (hK : evaluation.totalScore ≤ evaluation.totalTests) :
    0 ≤ finalScore evaluation marks ∧ finalScore evaluation marks ≤ marks ∧
    (evaluation.totalScore = evaluation.totalTests → finalScore evaluation marks = marks) := by
  refine ⟨Nat.zero_le _, proportionalScore_le _ _ _ hN hK, ?_⟩
  intro h
  unfold finalScore
  rw [h]
  exact proportionalScore_all _ _ hN

/-- Witness of C29 (amended): 23 of 40 test cases on a question worth 10 marks. -/
theorem finalScore_bounds_witness :
    (1 ≤ (EvaluationSummary.mk [] 23 40 57).totalTests ∧
      (EvaluationSummary.mk [] 23 40 57).totalScore ≤ (EvaluationSummary.mk [] 23 40 57).totalTests) ∧
    (0 ≤ finalScore (EvaluationSummary.mk [] 23 40 57) 10 ∧
      finalScore (EvaluationSummary.mk [] 23 40 57) 10 ≤ 10 ∧
      ((EvaluationSummary.mk [] 23 40 57).totalScore = (EvaluationSummary.mk [] 23 40 57).totalTests →
        finalScore (EvaluationSummary.mk [] 23 40 57) 10 = 10)) :=
  ⟨⟨by decide, by decide⟩,
    finalScore_bounds (EvaluationSummary.mk [] 23 40 57) 10 (by decide) (by decide)⟩

/-- When every one of at least one test cases passed, the percentage is 100 and the status is
`passed`. -/
theorem percentageOf_all (N : Nat) (hN : 0 < N) : percentageOf N N = 100 :=
  proportionalScore_all N 100 hN

set_option maxRecDepth 20000 in
/-- C30 (at the failing input): of 200 test cases 199 pass; the percentage is 100 and the
status is `passed`. -/
theorem submissionStatus_passed_with_a_failed_case :
    (evaluateTestCasesWith first199Pass (.str "") (.str "python3") twoHundredCases 2000).map
        (fun p => (passedCount p.1.results, p.1.totalScore, p.1.totalTests, p.1.percentage,
          submissionStatus p.1)) = some (199, 199, 200, 100, "passed") := by
  decide

/-! ## The Scanner import and the earlier repairs -/

theorem isPrefixOf_relatedClosed (X : List Char) (hX : ∀ s t, X ≠ s ++ 'p' :: 'u' :: t) :
    ∀ {a b : List Char}, RelatedClosed a b → X.isPrefixOf a = X.isPrefixOf b := by
  induction X with
  | nil => intro a b _; simp
  | cons q qs ih =>
    intro a b h
    have hqs : ∀ s t, qs ≠ s ++ 'p' :: 'u' :: t := by
      intro s t hcon
      exact hX (q :: s) t (by simp [hcon])
    cases h with
    | nil => rfl
    | cons c h1 =>
      simp only [List.isPrefixOf]
      rw [ih hqs h1]
    | span hx hy h1 =>
      obtain ⟨⟨rx, rfl⟩, -, -⟩ := hx
      obtain ⟨⟨ry, rfl⟩, -, -⟩ := hy
      by_cases hq : q = 'p'
      · subst hq
        cases qs with
        | nil => simp [List.isPrefixOf]
        | cons q2 qs2 =>
          have hq2 : (q2 == 'u') = false := by
            rw [beq_eq_false_iff_ne]
            rintro rfl
            exact hX [] qs2 rfl
          simp [List.isPrefixOf, hq2]
      · have hq1 : (q == 'p') = false := by
          rw [beq_eq_false_iff_ne]
          exact hq
        simp [List.isPrefixOf, hq1]

theorem occurs_after_closed_stretch (X body a : List Char) (z : Char) (hS : 'S' ∈ X)
    (hx : ∀ c ∈ body ++ [z], c ≠ 'S') (hz : z ∉ X) :
    X <:+: (body ++ [z]) ++ a ↔ X <:+: a := by
  constructor
  · rintro ⟨s, t, h⟩
    rw [List.append_assoc s X t] at h
    rcases List.append_eq_append_iff.mp h with ⟨c1, h1, h2⟩ | ⟨a1, h1, h2⟩
    · -- `body ++ [z] = s ++ c1` and `X ++ t = c1 ++ a`
      rcases List.append_eq_append_iff.mp h2 with ⟨d, h3, h4⟩ | ⟨d, h3, h4⟩
      · -- `c1 = X ++ d`
        exfalso
        have : 'S' ∈ body ++ [z] := by
          rw [h1, h3]
          simp [hS]
        exact hx 'S' this rfl
      · -- `X = c1 ++ d`
        cases c1 with
        | nil =>
          simp only [List.nil_append] at h3 h4
          subst h3
          exact ⟨[], t, by simp [h4]⟩
        | cons e es =>
          exfalso
          have hmem : z ∈ e :: es := by
            have h5 : (s ++ e :: es).getLast? = some z := by
              rw [← h1]
              simp
            rw [List.getLast?_append_of_ne_nil _ (by simp)] at h5
            exact List.mem_of_getLast?_eq_some h5
          apply hz
          rw [h3]
          exact List.mem_append_left _ hmem
    · -- `a = a1 ++ X ++ t`
      exact ⟨a1, t, by simp [h2]⟩
  · rintro ⟨s, t, h⟩
    exact ⟨(body ++ [z]) ++ s, t, by simp [← h]⟩


theorem occurs_before_closed_stretch (X a body : List Char) (z : Char) (hS : 'S' ∈ X)
    (hx : ∀ c ∈ z :: body, c ≠ 'S') (hz : z ∉ X) :
    X <:+: a ++ z :: body ↔ X <:+: a := by
  constructor
  · rintro ⟨s, t, h⟩
    rcases List.append_eq_append_iff.mp h with ⟨c1, h1, h2⟩ | ⟨a1, h1, h2⟩
    · -- `a = s ++ X ++ c1`
      exact ⟨s, c1, h1.symm⟩
    · -- `s ++ X = a ++ a1` and `z :: body = a1 ++ t`
      rcases List.append_eq_append_iff.mp h1 with ⟨d, h3, h4⟩ | ⟨d, h3, h4⟩
      · -- `a = s ++ d` and `X = d ++ a1`
        cases a1 with
        | nil =>
          simp only [List.append_nil] at h4
          subst h4
          exact ⟨s, [], by simp [h3]⟩
        | cons e es =>
          exfalso
          simp only [List.cons_append, List.cons.injEq] at h2
          apply hz
          rw [h4, h2.1]
          simp
      · -- `a1 = d ++ X`
        exfalso
        have : 'S' ∈ z :: body := by
          rw [h2, h4]
          simp [hS]
        exact hx 'S' this rfl
  · rintro ⟨s, t, h⟩
    exact ⟨s, t ++ z :: body, by simp [← h]⟩

theorem includesChars_relatedClosed (X : List Char) (hX : Searchable X) {a b : List Char}
    (h : RelatedClosed a b) : includesChars a X = includesChars b X := by
  obtain ⟨hS, hparen, -, hpu⟩ := hX
  have hspan : ∀ x t, IsClosedSpan x → includesChars (x ++ t) X = includesChars t X := by
    intro x t hx
    obtain ⟨-, ⟨body, rfl⟩, hno⟩ := hx
    rw [Bool.eq_iff_iff, includesChars_iff_occurs, includesChars_iff_occurs]
    exact occurs_after_closed_stretch X body t '(' hS hno hparen
  induction h with
  | nil => rfl
  | cons c h1 ih =>
    rename_i a1 b1
    have hp := isPrefixOf_relatedClosed X hpu (RelatedClosed.cons c h1)
    cases X with
    | nil => simp at hS
    | cons q qs =>
      simp only [includesChars]
      rw [hp, ih]
  | span hx hy h1 ih => rw [hspan _ _ hx, hspan _ _ hy, ih]

theorem matchMainAt_closedSpan (s rest : List Char) (h : matchMainAt s = some rest) :
    ∃ mid, s = mid ++ rest ∧ IsClosedSpan mid := by
  simp only [matchMainAt] at h
  cases h1 : stripLit "public".data s with
  | none => simp [h1] at h
  | some r1 =>
    simp only [h1] at h
    cases h2 : skipSpaces1 r1 with
    | none => simp [h2] at h
    | some r2 =>
      simp only [h2] at h
      cases h3 : stripLit "static".data r2 with
      | none => simp [h3] at h
      | some r3 =>
        simp only [h3] at h
        cases h4 : skipSpaces1 r3 with
        | none => simp [h4] at h
        | some r4 =>
          simp only [h4] at h
          cases h5 : stripLit "void".data r4 with
          | none => simp [h5] at h
          | some r5 =>
            simp only [h5] at h
            cases h6 : skipSpaces1 r5 with
            | none => simp [h6] at h
            | some r6 =>
              simp only [h6] at h
              cases h7 : stripLit "Main".data r6 with
              | none => simp [h7] at h
              | some r7 =>
                simp only [h7] at h
                have e1 := stripLit_eq_some _ _ _ h1
                obtain ⟨W1, -, hW1, e2⟩ := skipSpaces1_eq_some _ _ h2
                have e3 := stripLit_eq_some _ _ _ h3
                obtain ⟨W2, -, hW2, e4⟩ := skipSpaces1_eq_some _ _ h4
                have e5 := stripLit_eq_some _ _ _ h5
                obtain ⟨W3, -, hW3, e6⟩ := skipSpaces1_eq_some _ _ h6
                have e7 := stripLit_eq_some _ _ _ h7
                have e8 := stripLit_eq_some _ _ _ h
                have e9 : r7 = r7.takeWhile isJSWhitespace ++ ("(".data ++ rest) := by
                  rw [← e8]
                  exact (List.takeWhile_append_dropWhile _ _).symm
                have hws : ∀ c, isJSWhitespace c = true → c ≠ 'S' := by
                  intro c hc
                  rintro rfl
                  revert hc
                  decide
                refine ⟨"public".data ++ W1 ++ "static".data ++ W2 ++ "void".data ++
                  W3 ++ "Main".data ++ r7.takeWhile isJSWhitespace ++ "(".data, ?_,
                  ⟨_, rfl⟩, ⟨"public".data ++ W1 ++ "static".data ++ W2 ++
                    "void".data ++ W3 ++ "Main".data ++ r7.takeWhile isJSWhitespace, rfl⟩,
                  ?_⟩
                · rw [e1, e2, e3, e4, e5, e6, e7]
                  conv_lhs => rw [e9]
                  simp only [List.append_assoc, List.cons_append]
                · intro c hc
                  simp only [List.mem_append] at hc
                  rcases hc with (((((((hc | hc) | hc) | hc) | hc) | hc) | hc) | hc) | hc
                  · revert hc; revert c; decide
                  · exact hws c (hW1 c hc)
                  · revert hc; revert c; decide
                  · exact hws c (hW2 c hc)
                  · revert hc; revert c; decide
                  · exact hws c (hW3 c hc)
                  · revert hc; revert c; decide
                  · exact hws c (List.mem_takeWhile_imp hc)
                  · revert hc; revert c; decide


theorem isClosedSpan_replacement : IsClosedSpan "public static void main(".data :=
  ⟨⟨_, rfl⟩, ⟨"public static void main".data, rfl⟩, by decide⟩

theorem replaceMainAux_relatedClosed : ∀ (n : Nat) (s : List Char), s.length ≤ n →
    RelatedClosed s (replaceMainAux s 0) := by
  intro n
  induction n with
  | zero =>
    intro s hs
    have : s = [] := List.eq_nil_of_length_eq_zero (Nat.le_zero.mp hs)
    subst this
    exact .nil
  | succ n ih =>
    intro s hs
    cases s with
    | nil => exact .nil
    | cons c cs =>
      have hcs : cs.length ≤ n := by simpa using hs
      cases hm : matchMainAt (c :: cs) with
      | none =>
        have : replaceMainAux (c :: cs) 0 = c :: replaceMainAux cs 0 := by
          simp only [replaceMainAux, hm]
        rw [this]
        exact .cons c (ih cs hcs)
      | some rest =>
        obtain ⟨mid, hmid, hspan⟩ := matchMainAt_closedSpan _ _ hm
        obtain ⟨⟨mid2, rfl⟩, -, -⟩ := id hspan
        have hcs2 : cs = ('u' :: mid2) ++ rest := by
          have := hmid
          simp only [List.cons_append, List.cons.injEq] at this
          simpa using this.2
        have hlen : (c :: cs).length - rest.length - 1 = ('u' :: mid2).length := by
          rw [hcs2]
          simp only [List.length_cons, List.length_append]
          omega
        have : replaceMainAux (c :: cs) 0 =
            "public static void main(".data ++ replaceMainAux rest 0 := by
          simp only [replaceMainAux, hm, hlen]
          rw [hcs2, replaceMainAux_skip]
        rw [this, hmid]
        refine .span hspan isClosedSpan_replacement (ih rest ?_)
        rw [hcs2] at hcs
        simp only [List.length_append, List.length_cons] at hcs
        omega

theorem searchable_Scanner : Searchable "Scanner".data := by
  refine ⟨by decide, by decide, by decide, ?_⟩
  intro s t h
  have hin : includesChars "Scanner".data "pu".data = true := by
    rw [includesChars_iff_occurs]
    exact ⟨s, t, by rw [h]; simp⟩
  revert hin
  decide

theorem searchable_import : Searchable "import java.util.Scanner".data := by
  refine ⟨by decide, by decide, by decide, ?_⟩
  intro s t h
  have hin : includesChars "import java.util.Scanner".data "pu".data = true := by
    rw [includesChars_iff_occurs]
    exact ⟨s, t, by rw [h]; simp⟩
  revert hin
  decide

theorem includes_fixMainSignature (m : String) (X : String) (hX : Searchable X.data) :
    includes (fixMainSignature m) X = includes m X :=
  (includesChars_relatedClosed X.data hX
    (replaceMainAux_relatedClosed _ m.data (Nat.le_refl _))).symm

theorem includes_wrapInMain (code : String) (X : String) (hX : Searchable X.data) :
    includes (wrapInMain code) X = includes code X := by
  unfold wrapInMain
  split
  · rfl
  · obtain ⟨hS, -, hnl, -⟩ := hX
    unfold includes
    rw [Bool.eq_iff_iff, includesChars_iff_occurs, includesChars_iff_occurs]
    have hd : ("public class Main \x7b\n" ++ code ++ "\n\x7d").data =
        ("public class Main \x7b".data ++ ['\n']) ++ (code.data ++ '\n' :: ['\x7d']) := by
      rw [String.data_append, String.data_append, List.append_assoc]
      rfl
    rw [hd, occurs_after_closed_stretch X.data _ _ '\n' hS (by decide) hnl,
      occurs_before_closed_stretch X.data _ _ '\n' hS (by decide) hnl]

/-- C21: if the source written by `executeJavaCode` contains `Scanner` it also contains
`import java.util.Scanner`; the import step prepends the import line exactly when its input
contains `Scanner` and not `import java.util.Scanner`, and otherwise returns its input
unchanged; the two earlier repairs do not change whether these texts occur, so the import
line is prepended exactly when the submitted source contains `Scanner` and not
`import java.util.Scanner`. -/
theorem addScannerImport_spec (code : String) :
    normalizeJava code = addScannerImport (fixMainSignature (wrapInMain code)) ∧
    (includes (normalizeJava code) "Scanner" = true →
      includes (normalizeJava code) "import java.util.Scanner" = true) ∧
    (∀ m : String,
      (addScannerImport m = "import java.util.Scanner;\n" ++ m ↔
        (includes m "Scanner" = true ∧ includes m "import java.util.Scanner" = false)) ∧
      (¬(includes m "Scanner" = true ∧ includes m "import java.util.Scanner" = false) →
        addScannerImport m = m)) ∧
    (normalizeJava code = "import java.util.Scanner;\n" ++ fixMainSignature (wrapInMain code) ↔
      (includes code "Scanner" = true ∧ includes code "import java.util.Scanner" = false)) := by
  refine ⟨rfl, ?_, fun m => ⟨addScannerImport_eq_prepended_iff m, ?_⟩, ?_⟩
  rotate_left 2
  · have h1 := includes_fixMainSignature (wrapInMain code) "Scanner" searchable_Scanner
    have h2 := includes_wrapInMain code "Scanner" searchable_Scanner
    have h3 := includes_fixMainSignature (wrapInMain code) "import java.util.Scanner"
      searchable_import
    have h4 := includes_wrapInMain code "import java.util.Scanner" searchable_import
    have := addScannerImport_eq_prepended_iff (fixMainSignature (wrapInMain code))
    rw [h1, h2, h3, h4] at this
    exact this
  · intro h
    unfold normalizeJava at h ⊢
    by_cases hc : includes (fixMainSignature (wrapInMain code)) "Scanner" = true ∧
        includes (fixMainSignature (wrapInMain code)) "import java.util.Scanner" = false
    · rw [(addScannerImport_eq_prepended_iff _).mpr hc]
      exact includes_import_prepended _
    · have hm : addScannerImport (fixMainSignature (wrapInMain code)) =
          fixMainSignature (wrapInMain code) := by
        unfold addScannerImport
        rw [if_neg]
        simpa using hc
      rw [hm] at h ⊢
      by_contra hn
      exact hc ⟨h, by simpa using hn⟩
  · intro hc
    unfold addScannerImport
    rw [if_neg]
    simpa using hc

end CodeExecutor
